import Mathlib

/-!
Verification development for the math-tools repository
(`numpy_solver.py`, `sympy_solver.py`, `plotter.py`).

The Python source is shallowly embedded: pure string manipulation is
translated to functions on `List Char` / `String`, numbers (Python floats)
are modelled as exact rationals `ℚ`, JSON result dictionaries become
ordered association lists `JObj`, and every call into an external library
(SciPy root finders, the SymPy CAS, NumPy linear algebra, matplotlib)
becomes an explicit oracle parameter whose result type mirrors what the
Python code observes (a value, or a raised exception modelled by
`Option`/`Except`).
-/

/-! ## JSON result values

Python functions in this repository return `dict`s that are serialised to
JSON.  `JVal` is the value model and `JObj` an ordered dictionary (the
sources always build dict literals, so insertion order is fixed). -/

inductive JVal where
  | str : String → JVal
  | num : ℚ → JVal
  | bool : Bool → JVal
  | null : JVal
  | arr : List JVal → JVal
  | obj : List (String × JVal) → JVal

/-- Result object of a top-level tool operation. -/
abbrev JObj : Type := List (String × JVal)

/-- Key list of a result object, in insertion order. -/
def jkeys (r : JObj) : List String := r.map Prod.fst

/-- Lookup of a key in a result object. -/
def jget (r : JObj) (k : String) : Option JVal :=
  match r with
  | [] => none
  | (k', v) :: rest => if k' = k then some v else jget rest k

/-- Error object `{"error": msg}` as returned by every top-level handler. -/
def errObj (msg : String) : JObj := [("error", JVal.str msg)]

/-- Extracts the error message of a result, if any. -/
def getErr (r : JObj) : Option String :=
  match jget r "error" with
  | some (JVal.str s) => some s
  | _ => none

/-- Extracts a list of rationals from a JSON array of numbers. -/
def getNums : JVal → Option (List ℚ)
  | JVal.arr l => l.mapM (fun v => match v with | JVal.num q => some q | _ => none)
  | _ => none

/-- Extracts the "solutions" field of a result as a list of rationals. -/
def getSolutions (r : JObj) : Option (List ℚ) :=
  (jget r "solutions").bind getNums

/-! ## Basic character facts -/

/-- Induction on a list of characters that looks at two consecutive
characters at a time, matching the recursion pattern of the two
`re.sub` passes below. -/
theorem twoStepInduction {P : List Char → Prop} (h0 : P []) (h1 : ∀ c, P [c])
    (h2 : ∀ c1 c2 t, P t → P (c2 :: t) → P (c1 :: c2 :: t)) : ∀ l, P l
  | [] => h0
  | [c] => h1 c
  | c1 :: c2 :: t => h2 c1 c2 t (twoStepInduction h0 h1 h2 t) (twoStepInduction h0 h1 h2 (c2 :: t))

/-- ASCII letters are not decimal digits. -/
theorem not_digit_of_alpha (c : Char) (h : c.isAlpha = true) : c.isDigit = false := by
  simp only [Char.isAlpha, Char.isUpper, Char.isLower, Bool.or_eq_true, Bool.and_eq_true,
    decide_eq_true_eq] at h
  simp only [Char.isDigit, Bool.and_eq_false_iff, decide_eq_false_iff_not]
  rcases h with ⟨h1, _⟩ | ⟨h1, _⟩ <;> right <;> intro hle <;>
    simp only [UInt32.le_def, BitVec.le_def] at h1 hle <;>
    exact absurd (Nat.le_trans h1 hle) (by decide)

/-! ## Equation preprocessor

Embedding of `preprocess_equation` (identical in `numpy_solver.py` lines
8-23 and `sympy_solver.py` lines 11-26):
`equation.replace('^', '**')`, then `re.sub(r'(\d)([a-zA-Z])', r'\1*\2', ...)`,
then `re.sub(r'\)(\()', r')*\1', ...)`.  Both `re.sub` calls replace
non-overlapping two-character matches scanning left to right, the scan
continuing after each replaced match. -/

/-- The `str.replace('^', '**')` pass. -/
def caretRepl : List Char → List Char
  | [] => []
  | c :: t => if c = '^' then '*' :: '*' :: caretRepl t else c :: caretRepl t

/-- The `re.sub(r'(\d)([a-zA-Z])', r'\1*\2', s)` pass: insert `*` between a
digit immediately followed by an ASCII letter; each match consumes both
characters. -/
def subDigitAlpha : List Char → List Char
  | c1 :: c2 :: t =>
    if c1.isDigit && c2.isAlpha then c1 :: '*' :: c2 :: subDigitAlpha t
    else c1 :: subDigitAlpha (c2 :: t)
  | l => l

/-- The `re.sub(r'\)(\()', r')*\1', s)` pass: rewrite an adjacent `)(` to
`)*(`; each match consumes both characters. -/
def subParenParen : List Char → List Char
  | c1 :: c2 :: t =>
    if c1 = ')' && c2 = '(' then ')' :: '*' :: '(' :: subParenParen t
    else c1 :: subParenParen (c2 :: t)
  | l => l

/-- Character-list form of `preprocess_equation`. -/
def preprocessL (l : List Char) : List Char :=
  subParenParen (subDigitAlpha (caretRepl l))

/-- Embedding of `preprocess_equation`. -/
def preprocess_equation (s : String) : String :=
  String.mk (preprocessL s.toList)

/-- Normal form: no caret character occurs. -/
def NoCaret (l : List Char) : Prop := '^' ∉ l

/-- Normal form: no digit is immediately followed by an ASCII letter. -/
def NoDigitAlpha (l : List Char) : Prop :=
  List.Chain' (fun a b => ¬(a.isDigit = true ∧ b.isAlpha = true)) l

/-- Normal form: no `)` is immediately followed by `(`. -/
def NoParenParen (l : List Char) : Prop :=
  List.Chain' (fun a b => ¬(a = ')' ∧ b = '(')) l

theorem caretRepl_noCaret (l : List Char) : NoCaret (caretRepl l) := by
  induction l with
  | nil => simp [caretRepl, NoCaret]
  | cons c t ih =>
    simp only [caretRepl]
    split
    · simp only [NoCaret, List.mem_cons]
      rintro (h | h | h)
      · exact absurd h.symm (by decide)
      · exact absurd h.symm (by decide)
      · exact ih h
    · next hc =>
      simp only [NoCaret, List.mem_cons]
      rintro (h | h)
      · exact hc h.symm
      · exact ih h

theorem caretRepl_id (l : List Char) (h : NoCaret l) : caretRepl l = l := by
  induction l with
  | nil => rfl
  | cons c t ih =>
    have hc : ¬ c = '^' := fun hh => h (by simp [hh])
    have ht : NoCaret t := fun hm => h (List.mem_cons_of_mem _ hm)
    simp [caretRepl, hc, ih ht]

theorem subDigitAlpha_head (c : Char) (t : List Char) :
    ∃ t2, subDigitAlpha (c :: t) = c :: t2 := by
  cases t with
  | nil => exact ⟨[], rfl⟩
  | cons d t2 =>
    simp only [subDigitAlpha]
    split
    · exact ⟨_, rfl⟩
    · exact ⟨_, rfl⟩

theorem subDigitAlpha_noDigitAlpha (l : List Char) :
    NoDigitAlpha (subDigitAlpha l) := by
  induction l using twoStepInduction with
  | h0 => simp [subDigitAlpha, NoDigitAlpha]
  | h1 c => simp [subDigitAlpha, NoDigitAlpha]
  | h2 c1 c2 t iht ihct =>
    simp only [subDigitAlpha]
    split
    · next hm =>
      have hc2 : c2.isAlpha = true := (Bool.and_eq_true _ _).mp hm |>.2
      rcases t with _ | ⟨e, t2⟩
      · refine List.Chain'.cons ?_ (List.Chain'.cons ?_ ?_)
        · rintro ⟨_, hb⟩; exact absurd hb (by decide)
        · rintro ⟨ha, _⟩; exact absurd ha (by decide)
        · simp [subDigitAlpha]
      · obtain ⟨t3, ht3⟩ := subDigitAlpha_head e t2
        rw [ht3] at iht ⊢
        refine List.Chain'.cons ?_ (List.Chain'.cons ?_ (List.Chain'.cons ?_ iht))
        · rintro ⟨_, hb⟩; exact absurd hb (by decide)
        · rintro ⟨ha, _⟩; exact absurd ha (by decide)
        · rintro ⟨hd, _⟩
          rw [not_digit_of_alpha c2 hc2] at hd
          exact absurd hd (by decide)
    · next hm =>
      obtain ⟨t3, ht3⟩ := subDigitAlpha_head c2 t
      rw [ht3] at ihct ⊢
      refine List.Chain'.cons ?_ ihct
      rintro ⟨hd, ha⟩
      exact hm (by simp [hd, ha])

theorem subDigitAlpha_id (l : List Char) (h : NoDigitAlpha l) : subDigitAlpha l = l := by
  induction l using twoStepInduction with
  | h0 => rfl
  | h1 c => rfl
  | h2 c1 c2 t iht ihct =>
    have hpair : ¬(c1.isDigit = true ∧ c2.isAlpha = true) :=
      (List.chain'_cons.mp h).1
    have ht : NoDigitAlpha (c2 :: t) := (List.chain'_cons.mp h).2
    have hm : ¬ (c1.isDigit && c2.isAlpha) = true := by
      intro hb; exact hpair ((Bool.and_eq_true _ _).mp hb)
    simp [subDigitAlpha, hm, ihct ht]

theorem subDigitAlpha_noCaret (l : List Char) (h : NoCaret l) :
    NoCaret (subDigitAlpha l) := by
  induction l using twoStepInduction with
  | h0 => exact h
  | h1 c => exact h
  | h2 c1 c2 t iht ihct =>
    have h1 : ¬ c1 = '^' := fun hh => h (by simp [hh])
    have hct : NoCaret (c2 :: t) := by
      intro hm; exact h (List.mem_cons_of_mem _ hm)
    have ht : NoCaret t := by
      intro hm; exact hct (List.mem_cons_of_mem _ hm)
    simp only [subDigitAlpha]
    split
    · simp only [NoCaret, List.mem_cons]
      rintro (hh | hh | hh | hh)
      · exact h1 hh.symm
      · exact absurd hh.symm (by decide)
      · exact hct (List.mem_cons.mpr (Or.inl hh))
      · exact iht ht hh
    · simp only [NoCaret, List.mem_cons]
      rintro (hh | hh)
      · exact h1 hh.symm
      · exact ihct hct hh

theorem subParenParen_head (c : Char) (t : List Char) :
    ∃ t2, subParenParen (c :: t) = c :: t2 := by
  cases t with
  | nil => exact ⟨[], rfl⟩
  | cons d t2 =>
    simp only [subParenParen]
    split
    · next hm =>
      have hc : c = ')' := of_decide_eq_true ((Bool.and_eq_true _ _).mp hm).1
      exact ⟨_, by rw [hc]⟩
    · exact ⟨_, rfl⟩

theorem subParenParen_noParenParen (l : List Char) :
    NoParenParen (subParenParen l) := by
  induction l using twoStepInduction with
  | h0 => simp [subParenParen, NoParenParen]
  | h1 c => simp [subParenParen, NoParenParen]
  | h2 c1 c2 t iht ihct =>
    simp only [subParenParen]
    split
    · rcases t with _ | ⟨e, t2⟩
      · refine List.Chain'.cons ?_ (List.Chain'.cons ?_ ?_)
        · rintro ⟨_, hb⟩; exact absurd hb (by decide)
        · rintro ⟨ha, _⟩; exact absurd ha (by decide)
        · simp [subParenParen]
      · obtain ⟨t3, ht3⟩ := subParenParen_head e t2
        rw [ht3] at iht ⊢
        refine List.Chain'.cons ?_ (List.Chain'.cons ?_ (List.Chain'.cons ?_ iht))
        · rintro ⟨_, hb⟩; exact absurd hb (by decide)
        · rintro ⟨ha, _⟩; exact absurd ha (by decide)
        · rintro ⟨ha, _⟩; exact absurd ha (by decide)
    · next hm =>
      obtain ⟨t3, ht3⟩ := subParenParen_head c2 t
      rw [ht3] at ihct ⊢
      refine List.Chain'.cons ?_ ihct
      rintro ⟨ha, hb⟩
      exact hm (by simp [ha, hb])

theorem subParenParen_id (l : List Char) (h : NoParenParen l) : subParenParen l = l := by
  induction l using twoStepInduction with
  | h0 => rfl
  | h1 c => rfl
  | h2 c1 c2 t iht ihct =>
    have hpair : ¬(c1 = ')' ∧ c2 = '(') := (List.chain'_cons.mp h).1
    have ht : NoParenParen (c2 :: t) := (List.chain'_cons.mp h).2
    have hm : ¬ (c1 = ')' && c2 = '(') = true := by
      intro hb
      have := (Bool.and_eq_true _ _).mp hb
      exact hpair ⟨of_decide_eq_true this.1, of_decide_eq_true this.2⟩
    simp only [subParenParen]
    rw [if_neg hm, ihct ht]

theorem subParenParen_noCaret (l : List Char) (h : NoCaret l) :
    NoCaret (subParenParen l) := by
  induction l using twoStepInduction with
  | h0 => exact h
  | h1 c => exact h
  | h2 c1 c2 t iht ihct =>
    have h1 : ¬ c1 = '^' := fun hh => h (by simp [hh])
    have hct : NoCaret (c2 :: t) := by
      intro hm; exact h (List.mem_cons_of_mem _ hm)
    have ht : NoCaret t := by
      intro hm; exact hct (List.mem_cons_of_mem _ hm)
    simp only [subParenParen]
    split
    · simp only [NoCaret, List.mem_cons]
      rintro (hh | hh | hh | hh)
      · exact absurd hh.symm (by decide)
      · exact absurd hh.symm (by decide)
      · exact absurd hh.symm (by decide)
      · exact iht ht hh
    · simp only [NoCaret, List.mem_cons]
      rintro (hh | hh)
      · exact h1 hh.symm
      · exact ihct hct hh

theorem subParenParen_noDigitAlpha (l : List Char) (h : NoDigitAlpha l) :
    NoDigitAlpha (subParenParen l) := by
  induction l using twoStepInduction with
  | h0 => exact h
  | h1 c => exact h
  | h2 c1 c2 t iht ihct =>
    have hpair : ¬(c1.isDigit = true ∧ c2.isAlpha = true) := (List.chain'_cons.mp h).1
    have hct : NoDigitAlpha (c2 :: t) := (List.chain'_cons.mp h).2
    have ht : NoDigitAlpha t := by
      cases t with
      | nil => simp [NoDigitAlpha]
      | cons e t2 => exact (List.chain'_cons.mp hct).2
    simp only [subParenParen]
    split
    · next hm =>
      rcases t with _ | ⟨e, t2⟩
      · refine List.Chain'.cons ?_ (List.Chain'.cons ?_ ?_)
        · rintro ⟨ha, _⟩; exact absurd ha (by decide)
        · rintro ⟨ha, _⟩; exact absurd ha (by decide)
        · simp [subParenParen, NoDigitAlpha]
      · obtain ⟨t3, ht3⟩ := subParenParen_head e t2
        rw [ht3] at iht ⊢
        refine List.Chain'.cons ?_ (List.Chain'.cons ?_ (List.Chain'.cons ?_ (iht ht)))
        · rintro ⟨ha, _⟩; exact absurd ha (by decide)
        · rintro ⟨ha, _⟩; exact absurd ha (by decide)
        · rintro ⟨ha, _⟩; exact absurd ha (by decide)
    · obtain ⟨t3, ht3⟩ := subParenParen_head c2 t
      rw [ht3] at ihct ⊢
      exact List.Chain'.cons hpair (ihct hct)

/-- The output of the preprocessor is in normal form: no caret, no
digit-letter adjacency, no `)(` adjacency. -/
theorem preprocessL_normal (l : List Char) :
    NoCaret (preprocessL l) ∧ NoDigitAlpha (preprocessL l) ∧ NoParenParen (preprocessL l) := by
  refine ⟨?_, ?_, ?_⟩
  · exact subParenParen_noCaret _ (subDigitAlpha_noCaret _ (caretRepl_noCaret l))
  · exact subParenParen_noDigitAlpha _ (subDigitAlpha_noDigitAlpha _)
  · exact subParenParen_noParenParen _

/-- The preprocessor is the identity on lists in normal form. -/
theorem preprocessL_id (l : List Char) (h1 : NoCaret l) (h2 : NoDigitAlpha l)
    (h3 : NoParenParen l) : preprocessL l = l := by
  unfold preprocessL
  rw [caretRepl_id l h1, subDigitAlpha_id l h2, subParenParen_id l h3]

theorem preprocessL_idem (l : List Char) : preprocessL (preprocessL l) = preprocessL l := by
  obtain ⟨h1, h2, h3⟩ := preprocessL_normal l
  exact preprocessL_id _ h1 h2 h3

/-! ## Equation standardization

Both solvers standardize `"lhs = rhs"` input into `"(lhs') - (rhs')"`
(`numpy_solver.py` lines 32-39, `sympy_solver.py` lines 165-172):
split on the first `=`, strip whitespace from both sides, preprocess each
side, and join.  Input without `=` is preprocessed directly. -/

/-- Split a character list at the first occurrence of `sep`
(Python `str.split(sep, 1)` when `sep` occurs). -/
def breakAtChar (sep : Char) : List Char → Option (List Char × List Char)
  | [] => none
  | c :: t =>
    if c = sep then some ([], t)
    else
      match breakAtChar sep t with
      | none => none
      | some (a, b) => some (c :: a, b)

/-- Python `str.strip()` on ASCII whitespace. -/
def trimL (l : List Char) : List Char :=
  ((l.dropWhile Char.isWhitespace).reverse.dropWhile Char.isWhitespace).reverse

/-- The `"({left}) - ({right})"` assembly used by both solvers. -/
def standardizeEquation (s : String) : String :=
  match breakAtChar '=' s.toList with
  | some (left, right) =>
    String.mk ((('(' :: preprocessL (trimL left)) ++ [')', ' ', '-', ' ', '(']) ++
      (preprocessL (trimL right) ++ [')']))
  | none => String.mk (preprocessL s.toList)

theorem toList_mk (l : List Char) : (String.mk l).toList = l := rfl

theorem noCaret_wrap (X Y : List Char) (hX : NoCaret X) (hY : NoCaret Y) :
    NoCaret ((('(' :: X) ++ [')', ' ', '-', ' ', '(']) ++ (Y ++ [')'])) := by
  intro hm
  simp only [List.mem_append, List.mem_cons] at hm
  rcases hm with ((h | h) | h) | (h | h)
  · exact absurd h (by decide)
  · exact hX h
  · exact absurd h (by decide)
  · exact hY h
  · exact absurd h (by decide)

theorem midList_getLast : [')', ' ', '-', ' ', '('].getLast? = some '(' := rfl

theorem noDA_wrap (X Y : List Char) (hX : NoDigitAlpha X) (hY : NoDigitAlpha Y) :
    NoDigitAlpha ((('(' :: X) ++ [')', ' ', '-', ' ', '(']) ++ (Y ++ [')'])) := by
  refine List.chain'_append.mpr ⟨?_, ?_, ?_⟩
  · refine List.chain'_append.mpr ⟨?_, ?_, ?_⟩
    · refine List.chain'_cons'.mpr ⟨?_, hX⟩
      intro y _
      rintro ⟨ha, _⟩
      exact absurd ha (by decide)
    · refine List.Chain'.cons ?_ (List.Chain'.cons ?_ (List.Chain'.cons ?_
        (List.Chain'.cons ?_ (List.chain'_singleton _)))) <;>
        (rintro ⟨ha, _⟩; exact absurd ha (by decide))
    · intro x _ y hy
      rw [List.head?_cons, Option.mem_def, Option.some.injEq] at hy
      subst hy
      rintro ⟨_, hb⟩
      exact absurd hb (by decide)
  · refine List.chain'_append.mpr ⟨hY, List.chain'_singleton _, ?_⟩
    intro x _ y hy
    rw [List.head?_cons, Option.mem_def, Option.some.injEq] at hy
    subst hy
    rintro ⟨_, hb⟩
    exact absurd hb (by decide)
  · intro x hx y _
    rw [List.getLast?_append_of_ne_nil _ (by simp), midList_getLast, Option.mem_def,
      Option.some.injEq] at hx
    subst hx
    rintro ⟨ha, _⟩
    exact absurd ha (by decide)

theorem noPP_wrap (X Y : List Char) (hX : NoParenParen X) (hY : NoParenParen Y) :
    NoParenParen ((('(' :: X) ++ [')', ' ', '-', ' ', '(']) ++ (Y ++ [')'])) := by
  refine List.chain'_append.mpr ⟨?_, ?_, ?_⟩
  · refine List.chain'_append.mpr ⟨?_, ?_, ?_⟩
    · refine List.chain'_cons'.mpr ⟨?_, hX⟩
      intro y _
      rintro ⟨ha, _⟩
      exact absurd ha (by decide)
    · refine List.Chain'.cons ?_ (List.Chain'.cons ?_ (List.Chain'.cons ?_
        (List.Chain'.cons ?_ (List.chain'_singleton _)))) <;>
        (rintro ⟨ha, hb⟩; first
          | exact absurd ha (by decide)
          | exact absurd hb (by decide))
    · intro x _ y hy
      rw [List.head?_cons, Option.mem_def, Option.some.injEq] at hy
      subst hy
      rintro ⟨_, hb⟩
      exact absurd hb (by decide)
  · refine List.chain'_append.mpr ⟨hY, List.chain'_singleton _, ?_⟩
    intro x _ y hy
    rw [List.head?_cons, Option.mem_def, Option.some.injEq] at hy
    subst hy
    rintro ⟨_, hb⟩
    exact absurd hb (by decide)
  · intro x hx y _
    rw [List.getLast?_append_of_ne_nil _ (by simp), midList_getLast, Option.mem_def,
      Option.some.injEq] at hx
    subst hx
    rintro ⟨ha, _⟩
    exact absurd ha (by decide)

/-- The standardized equation echoed in a solver's "expression" field is a
fixpoint of the preprocessor. -/
theorem standardizeEquation_fixpoint (s : String) :
    preprocess_equation (standardizeEquation s) = standardizeEquation s := by
  unfold standardizeEquation
  cases hb : breakAtChar '=' s.toList with
  | none =>
    unfold preprocess_equation
    rw [toList_mk, preprocessL_idem]
  | some pr =>
    obtain ⟨left, right⟩ := pr
    unfold preprocess_equation
    rw [toList_mk]
    obtain ⟨hc1, hd1, hp1⟩ := preprocessL_normal (trimL left)
    obtain ⟨hc2, hd2, hp2⟩ := preprocessL_normal (trimL right)
    rw [preprocessL_id _ (noCaret_wrap _ _ hc1 hc2) (noDA_wrap _ _ hd1 hd2)
      (noPP_wrap _ _ hp1 hp2)]

/-- Claim C2, counterexample: `preprocess_equation` does not insert `*`
between a digit and a following `(`, so `"3(x+1)(x-2)"` maps to
`"3(x+1)*(x-2)"` and not to the claimed `"3*(x+1)*(x-2)"`. -/
theorem C2_counterexample :
    preprocess_equation "3(x+1)(x-2)" = "3(x+1)*(x-2)" ∧
    preprocess_equation "3(x+1)(x-2)" ≠ "3*(x+1)*(x-2)" := by
  refine ⟨rfl, ?_⟩
  decide

/-- Claim C2 (amended): `preprocess_equation` replaces `^` with `**`,
inserts `*` between a digit immediately followed by a letter, and inserts
`*` between `)(`; hence `"2x"` maps to `"2*x"`, `"x^2"` to `"x**2"`, and
`"3(x+1)(x-2)"` to `"3(x+1)*(x-2)"` (no `*` after the leading digit). -/
theorem C2_preprocess_examples :
    preprocess_equation "2x" = "2*x" ∧
    preprocess_equation "x^2" = "x**2" ∧
    preprocess_equation "3(x+1)(x-2)" = "3(x+1)*(x-2)" :=
  ⟨rfl, rfl, rfl⟩

/-- Claim C4: the preprocessor is idempotent on every string, and the
standardized `"(left) - (right)"` expression echoed by a solver is itself
a fixpoint of the preprocessor. -/
theorem C4_preprocess_idempotent :
    (∀ s : String, preprocess_equation (preprocess_equation s) = preprocess_equation s) ∧
    (∀ s : String, preprocess_equation (standardizeEquation s) = standardizeEquation s) := by
  constructor
  · intro s
    unfold preprocess_equation
    rw [toList_mk, preprocessL_idem]
  · exact standardizeEquation_fixpoint

/-! ## Numeric utilities

Python floats are modelled by exact rationals.  `round(x, p)` in Python
rounds to `p` decimal places with ties to even; `sorted(list(set(xs)))`
produces the strictly increasing enumeration of the distinct values. -/

/-- Round a rational to the nearest integer, ties to even
(the rounding used by Python `round`). -/
def rhe (q : ℚ) : ℤ :=
  if q - (⌊q⌋ : ℚ) < 1/2 then ⌊q⌋
  else if 1/2 < q - (⌊q⌋ : ℚ) then ⌊q⌋ + 1
  else if ⌊q⌋ % 2 = 0 then ⌊q⌋ else ⌊q⌋ + 1

/-- Model of Python `round(q, p)`. -/
def pyRound (q : ℚ) (p : ℤ) : ℚ := (rhe (q * 10 ^ p) : ℚ) / 10 ^ p

theorem rhe_close (q : ℚ) : |(rhe q : ℚ) - q| ≤ 1/2 := by
  have h0 : (⌊q⌋ : ℚ) ≤ q := Int.floor_le q
  have h1 : q < (⌊q⌋ : ℚ) + 1 := Int.lt_floor_add_one q
  unfold rhe
  split_ifs with hlt hgt hev <;> rw [abs_le] <;> constructor <;> push_cast <;> linarith

theorem pyRound_close (q : ℚ) (p : ℤ) : |pyRound q p - q| ≤ 1/2 * (10:ℚ) ^ (-p) := by
  have hp : (0:ℚ) < 10 ^ p := zpow_pos (by norm_num) p
  have h := rhe_close (q * 10 ^ p)
  have heq : pyRound q p - q = ((rhe (q * 10 ^ p) : ℚ) - q * 10 ^ p) / 10 ^ p := by
    unfold pyRound
    field_simp
    ring
  rw [heq, abs_div, abs_of_pos hp, div_le_iff₀ hp, zpow_neg]
  calc |(rhe (q * 10 ^ p) : ℚ) - q * 10 ^ p| ≤ 1/2 := h
  _ = 1/2 * ((10:ℚ) ^ p)⁻¹ * 10 ^ p := by
      field_simp
  _ ≤ 1/2 * ((10:ℚ) ^ p)⁻¹ * 10 ^ p := le_refl _

/-- Model of Python `sorted(list(set(xs)))`. -/
def pySortedSet (l : List ℚ) : List ℚ := l.dedup.insertionSort (· ≤ ·)

theorem pySortedSet_sorted (l : List ℚ) : List.Sorted (· < ·) (pySortedSet l) := by
  have hs : List.Sorted (· ≤ ·) (pySortedSet l) := List.sorted_insertionSort _ _
  have hperm : List.Perm (pySortedSet l) l.dedup := List.perm_insertionSort _ _
  have hnd : (pySortedSet l).Nodup := hperm.nodup_iff.mpr (List.nodup_dedup l)
  exact (hs.and hnd).imp (fun h => lt_of_le_of_ne h.1 h.2)

theorem pySortedSet_mem (l : List ℚ) (a : ℚ) : a ∈ pySortedSet l ↔ a ∈ l := by
  unfold pySortedSet
  rw [(List.perm_insertionSort _ _).mem_iff, List.mem_dedup]

/-- Model of `numpy.linspace(a, b, n)`: the `n` evenly spaced samples of
`[a, b]`, both endpoints included (`[a]` for `n = 1`). -/
def linspace (a b : ℚ) (n : ℕ) : List ℚ :=
  (List.range n).map (fun (i : ℕ) => a + (i : ℚ) * ((b - a) / ((n : ℚ) - 1)))

theorem linspace_mem_bounds (a b : ℚ) (n : ℕ) (hab : a ≤ b) (x : ℚ)
    (hx : x ∈ linspace a b n) : a ≤ x ∧ x ≤ b := by
  unfold linspace at hx
  rw [List.mem_map] at hx
  obtain ⟨i, hi, hix⟩ := hx
  rw [List.mem_range] at hi
  subst hix
  rcases Nat.lt_or_ge n 2 with h2 | h2
  · interval_cases n
    · exact absurd hi (by omega)
    · have : ((1:ℕ) : ℚ) - 1 = 0 := by norm_num
      have hi0 : i = 0 := by omega
      subst hi0
      simp
      exact hab
  · have hn1 : (0:ℚ) < (n : ℚ) - 1 := by
      have : (2:ℚ) ≤ (n:ℚ) := by exact_mod_cast h2
      linarith
    have hile : (i : ℚ) ≤ (n : ℚ) - 1 := by
      have : (i:ℚ) + 1 ≤ (n:ℚ) := by exact_mod_cast hi
      linarith
    have hd : 0 ≤ (b - a) / ((n:ℚ) - 1) := div_nonneg (by linarith) (le_of_lt hn1)
    constructor
    · nlinarith [mul_nonneg (by positivity : (0:ℚ) ≤ (i:ℚ)) hd]
    · have hstep : (i:ℚ) * ((b - a) / ((n:ℚ) - 1)) ≤ ((n:ℚ) - 1) * ((b - a) / ((n:ℚ) - 1)) :=
        mul_le_mul_of_nonneg_right hile hd
      have hfull : ((n:ℚ) - 1) * ((b - a) / ((n:ℚ) - 1)) = b - a := by
        field_simp
      linarith [hstep.trans_eq hfull]

/-! ## Numeric single-equation solver

Embedding of `solve_equation_numeric` (`numpy_solver.py` lines 25-109).
The expression evaluator built by `eval` is the oracle
`f : ℚ → Except String ℚ` (an `Except.error` models a raised evaluation
exception), `optimize.newton` is the oracle `newtonO` (`none` = raised /
no convergence) and `optimize.brentq` the oracle `brentqO`. -/

/-- The absolute tolerance `1e-10` used for residual and duplicate checks. -/
def numTol : ℚ := 1 / 10 ^ 10

/-- One iteration of the Newton seeding loop (lines 65-75): keep the root
when it lies in the domain and the residual is below tolerance, skipping
roots within tolerance of an already kept (rounded) solution; any raise
is swallowed. -/
def newtonStep (f : ℚ → Except String ℚ) (newtonO : ℚ → Option ℚ) (d0 d1 : ℚ) (prec : ℤ)
    (acc : List ℚ × List String) (x0 : ℚ) : List ℚ × List String :=
  match newtonO x0 with
  | none => acc
  | some sol =>
    if d0 ≤ sol ∧ sol ≤ d1 then
      match f sol with
      | Except.error _ => acc
      | Except.ok fs =>
        if |fs| < numTol then
          if acc.1.any (fun s => |s - sol| < numTol) then acc
          else (acc.1 ++ [pyRound sol prec],
                acc.2 ++ [s!"Found solution from starting point {x0}: {sol}"])
        else acc
    else acc

/-- The Newton seeding loop over the ten starting points. -/
def newtonPass (f : ℚ → Except String ℚ) (newtonO : ℚ → Option ℚ) (d0 d1 : ℚ) (prec : ℤ) :
    List ℚ → List ℚ × List String → List ℚ × List String
  | [], acc => acc
  | x0 :: rest, acc => newtonPass f newtonO d0 d1 prec rest (newtonStep f newtonO d0 d1 prec acc x0)

/-- The list comprehension `[f(x) for x in x_vals]` (line 84): the first
raised evaluation error aborts the whole comprehension. -/
def evalAll (f : ℚ → Except String ℚ) : List ℚ → Except String (List ℚ)
  | [] => Except.ok []
  | x :: rest =>
    match f x with
    | Except.error e => Except.error e
    | Except.ok y =>
      match evalAll f rest with
      | Except.error e => Except.error e
      | Except.ok ys => Except.ok (y :: ys)

/-- Consecutive sample pairs `((x_i, y_i), (x_{i+1}, y_{i+1}))` scanned by
the brute-force loop (lines 86-94). -/
def brutePairs (xs ys : List ℚ) : List ((ℚ × ℚ) × (ℚ × ℚ)) :=
  (xs.zip ys).zip (xs.zip ys).tail

/-- One iteration of the brute-force loop: on a sign change run the
bracketed search; its result is kept without any further check. -/
def bruteStep (brentqO : ℚ → ℚ → Option ℚ) (prec : ℤ) (acc : List ℚ × List String) :
    (ℚ × ℚ) × (ℚ × ℚ) → List ℚ × List String
  | ((a, ya), (b, yb)) =>
    if ya * yb ≤ 0 then
      match brentqO a b with
      | some sol => (acc.1 ++ [pyRound sol prec],
                     acc.2 ++ [s!"Found solution in interval [{a}, {b}]: {sol}"])
      | none => (acc.1, acc.2 ++ [s!"Failed to converge in interval [{a}, {b}]"])
    else acc

/-- The brute-force loop over all consecutive sample pairs. -/
def brutePass (brentqO : ℚ → ℚ → Option ℚ) (prec : ℤ) :
    List ((ℚ × ℚ) × (ℚ × ℚ)) → List ℚ × List String → List ℚ × List String
  | [], acc => acc
  | p :: rest, acc => brutePass brentqO prec rest (bruteStep brentqO prec acc p)

/-- The brute-force fallback (lines 77-97), entered only when the Newton
pass kept no solution: sample 1000 points, abort on the first evaluation
error, otherwise scan sign changes. -/
def bruteFallback (f : ℚ → Except String ℚ) (brentqO : ℚ → ℚ → Option ℚ) (d0 d1 : ℚ)
    (prec : ℤ) (acc1 : List ℚ × List String) : List ℚ × List String :=
  if acc1.1.isEmpty then
    match evalAll f (linspace d0 d1 1000) with
    | Except.error e =>
      (acc1.1, acc1.2 ++ ["Using brute force root finding"] ++
        [s!"Error in brute force approach: {e}"])
    | Except.ok ys =>
      brutePass brentqO prec (brutePairs (linspace d0 d1 1000) ys)
        (acc1.1, acc1.2 ++ ["Using brute force root finding"])
  else acc1

/-- Core of `solve_equation_numeric` (lines 25-99): the collected solution
list (before the final sort / dedup) and the step log. -/
def solveEquationNumericCore (f : ℚ → Except String ℚ) (newtonO : ℚ → Option ℚ)
    (brentqO : ℚ → ℚ → Option ℚ) (equation : String) (d0 d1 : ℚ) (prec : ℤ) :
    List ℚ × List String :=
  bruteFallback f brentqO d0 d1 prec
    (newtonPass f newtonO d0 d1 prec (linspace d0 d1 10)
      ([], [s!"Using numeric method to solve: {standardizeEquation equation} = 0"]))

/-- Embedding of `solve_equation_numeric` (lines 25-109): the success
object; for well-typed request fields no exception can escape the
per-attempt handlers, so the outer handler's error object is unreachable. -/
def solve_equation_numeric (f : ℚ → Except String ℚ) (newtonO : ℚ → Option ℚ)
    (brentqO : ℚ → ℚ → Option ℚ) (equation varName : String) (d0 d1 : ℚ) (prec : ℤ) : JObj :=
  let core := solveEquationNumericCore f newtonO brentqO equation d0 d1 prec
  [("solutions", JVal.arr ((pySortedSet core.1).map JVal.num)),
   ("expression", JVal.str (standardizeEquation equation)),
   ("variable", JVal.str varName),
   ("steps", JVal.arr (core.2.map JVal.str))]

theorem getNums_map_num (l : List ℚ) : getNums (JVal.arr (l.map JVal.num)) = some l := by
  induction l with
  | nil => rfl
  | cons q t ih =>
    simp only [getNums, List.map_cons, List.mapM_cons] at ih ⊢
    rw [show (List.mapM (fun v => match v with | JVal.num q => some q | _ => none)
      (List.map JVal.num t)) = some t from by
        simpa [getNums] using ih]
    rfl

theorem getSolutions_solve_equation_numeric (f : ℚ → Except String ℚ) (newtonO : ℚ → Option ℚ)
    (brentqO : ℚ → ℚ → Option ℚ) (equation varName : String) (d0 d1 : ℚ) (prec : ℤ) :
    getSolutions (solve_equation_numeric f newtonO brentqO equation varName d0 d1 prec) =
      some (pySortedSet (solveEquationNumericCore f newtonO brentqO equation d0 d1 prec).1) := by
  unfold solve_equation_numeric getSolutions jget
  simp only [if_pos rfl]
  exact getNums_map_num _

theorem newtonPass_mem (f : ℚ → Except String ℚ) (newtonO : ℚ → Option ℚ) (d0 d1 : ℚ)
    (prec : ℤ) (seeds : List ℚ) :
    ∀ (acc : List ℚ × List String) (r : ℚ), r ∈ (newtonPass f newtonO d0 d1 prec seeds acc).1 →
      r ∈ acc.1 ∨ ∃ s, (d0 ≤ s ∧ s ≤ d1) ∧ r = pyRound s prec := by
  induction seeds with
  | nil => intro acc r h; exact Or.inl h
  | cons x0 rest ih =>
    intro acc r h
    simp only [newtonPass] at h
    rcases ih _ r h with hmem | hex
    · unfold newtonStep at hmem
      split at hmem
      · exact Or.inl hmem
      · next sol heq =>
        split at hmem
        · next hdom =>
          split at hmem
          · exact Or.inl hmem
          · split at hmem
            · split at hmem
              · exact Or.inl hmem
              · rcases List.mem_append.mp hmem with hin | hnew
                · exact Or.inl hin
                · refine Or.inr ⟨sol, hdom, ?_⟩
                  simpa using hnew
            · exact Or.inl hmem
        · exact Or.inl hmem
    · exact Or.inr hex

theorem bruteStep_mem (brentqO : ℚ → ℚ → Option ℚ) (prec : ℤ)
    (acc : List ℚ × List String) (p : (ℚ × ℚ) × (ℚ × ℚ)) (r : ℚ)
    (h : r ∈ (bruteStep brentqO prec acc p).1) :
    r ∈ acc.1 ∨ ∃ sol, brentqO p.1.1 p.2.1 = some sol ∧ r = pyRound sol prec := by
  obtain ⟨⟨a, ya⟩, ⟨b, yb⟩⟩ := p
  simp only [bruteStep] at h
  by_cases hc : ya * yb ≤ 0
  · rw [if_pos hc] at h
    cases hbq : brentqO a b with
    | none =>
      rw [hbq] at h
      exact Or.inl h
    | some sol =>
      rw [hbq] at h
      have h2 : r ∈ acc.1 ++ [pyRound sol prec] := h
      rcases List.mem_append.mp h2 with hin | hnew
      · exact Or.inl hin
      · exact Or.inr ⟨sol, rfl, by simpa using hnew⟩
  · rw [if_neg hc] at h
    exact Or.inl h

theorem brutePass_mem (brentqO : ℚ → ℚ → Option ℚ) (prec : ℤ) (d0 d1 : ℚ)
    (hbr : ∀ a b s, brentqO a b = some s → a ≤ s ∧ s ≤ b) (pairs : List ((ℚ × ℚ) × (ℚ × ℚ))) :
    ∀ (acc : List ℚ × List String) (r : ℚ),
      (∀ p ∈ pairs, (d0 ≤ p.1.1 ∧ p.1.1 ≤ d1) ∧ (d0 ≤ p.2.1 ∧ p.2.1 ≤ d1)) →
      r ∈ (brutePass brentqO prec pairs acc).1 →
      r ∈ acc.1 ∨ ∃ s, (d0 ≤ s ∧ s ≤ d1) ∧ r = pyRound s prec := by
  induction pairs with
  | nil => intro acc r _ h; exact Or.inl h
  | cons p rest ih =>
    intro acc r hb h
    simp only [brutePass] at h
    have hbrest : ∀ q ∈ rest, (d0 ≤ q.1.1 ∧ q.1.1 ≤ d1) ∧ (d0 ≤ q.2.1 ∧ q.2.1 ≤ d1) :=
      fun q hq => hb q (List.mem_cons_of_mem _ hq)
    rcases ih _ r hbrest h with hmem | hex
    · rcases bruteStep_mem brentqO prec acc p r hmem with hin | ⟨sol, heq, hval⟩
      · exact Or.inl hin
      · have hpb := hb _ (List.mem_cons_self _ _)
        obtain ⟨hs1, hs2⟩ := hbr _ _ sol heq
        exact Or.inr ⟨sol, ⟨le_trans hpb.1.1 hs1, le_trans hs2 hpb.2.2⟩, hval⟩
    · exact Or.inr hex

theorem brutePairs_bound (d0 d1 : ℚ) (hd : d0 ≤ d1) (n : ℕ) (ys : List ℚ)
    (p : (ℚ × ℚ) × (ℚ × ℚ)) (hp : p ∈ brutePairs (linspace d0 d1 n) ys) :
    (d0 ≤ p.1.1 ∧ p.1.1 ≤ d1) ∧ (d0 ≤ p.2.1 ∧ p.2.1 ≤ d1) := by
  obtain ⟨⟨a, ya⟩, ⟨b, yb⟩⟩ := p
  unfold brutePairs at hp
  have h12 := List.of_mem_zip hp
  have ha : a ∈ linspace d0 d1 n := (List.of_mem_zip h12.1).1
  have hbm : b ∈ linspace d0 d1 n :=
    (List.of_mem_zip (List.mem_of_mem_tail h12.2)).1
  exact ⟨linspace_mem_bounds _ _ _ hd _ ha, linspace_mem_bounds _ _ _ hd _ hbm⟩

theorem bruteFallback_mem (f : ℚ → Except String ℚ) (brentqO : ℚ → ℚ → Option ℚ)
    (d0 d1 : ℚ) (prec : ℤ) (hd : d0 ≤ d1)
    (hbr : ∀ a b s, brentqO a b = some s → a ≤ s ∧ s ≤ b)
    (acc1 : List ℚ × List String) (r : ℚ)
    (hr : r ∈ (bruteFallback f brentqO d0 d1 prec acc1).1) :
    r ∈ acc1.1 ∨ ∃ s, (d0 ≤ s ∧ s ≤ d1) ∧ r = pyRound s prec := by
  unfold bruteFallback at hr
  split at hr
  · split at hr
    · exact Or.inl hr
    · rcases brutePass_mem brentqO prec d0 d1 hbr _ _ r
        (fun p hp => brutePairs_bound d0 d1 hd 1000 _ p hp) hr with hmem | hex
      · exact Or.inl hmem
      · exact Or.inr hex
  · exact Or.inl hr

theorem solveEquationNumericCore_mem (f : ℚ → Except String ℚ) (newtonO : ℚ → Option ℚ)
    (brentqO : ℚ → ℚ → Option ℚ) (equation : String) (d0 d1 : ℚ) (prec : ℤ)
    (hd : d0 ≤ d1) (hbr : ∀ a b s, brentqO a b = some s → a ≤ s ∧ s ≤ b) (r : ℚ)
    (hr : r ∈ (solveEquationNumericCore f newtonO brentqO equation d0 d1 prec).1) :
    ∃ s, (d0 ≤ s ∧ s ≤ d1) ∧ r = pyRound s prec := by
  unfold solveEquationNumericCore at hr
  rcases bruteFallback_mem f brentqO d0 d1 prec hd hbr _ r hr with hmem | hex
  · rcases newtonPass_mem f newtonO d0 d1 prec _ _ r hmem with hmem2 | hex2
    · exact absurd hmem2 (List.not_mem_nil r)
    · exact hex2
  · exact hex

/-- Claim C5, counterexample: with domain `[0, 24/25]` (the float `0.96`)
and precision 1, a Newton root at exactly `24/25` passes the in-domain
check but is stored as `round(0.96, 1) = 1.0`, so the returned
"solutions" list `[1]` contains an element outside the domain. -/
theorem C5_counterexample :
    getSolutions (solve_equation_numeric (fun q => Except.ok (q - 24/25))
      (fun _ => some (24/25)) (fun _ _ => none) "x - 0.96" "x" 0 (24/25) 1) = some [1] ∧
    ¬((1:ℚ) ≤ 24/25) := by
  constructor
  · with_unfolding_all rfl
  · norm_num

/-- Claim C5 (amended): on success the "solutions" list of
`solve_equation_numeric` is strictly increasing, and every element is the
precision-rounding of a point of the domain (assuming the bracketed search
returns points inside its bracket), hence lies within half of
`10^(-precision)` of the domain; the rounded value itself may fall outside
the domain, as the counterexample shows. -/
theorem C5_solutions_sorted_rounded (f : ℚ → Except String ℚ) (newtonO : ℚ → Option ℚ)
    (brentqO : ℚ → ℚ → Option ℚ) (equation varName : String) (d0 d1 : ℚ) (prec : ℤ)
    (hd : d0 ≤ d1) (hbr : ∀ a b s, brentqO a b = some s → a ≤ s ∧ s ≤ b)
    (l : List ℚ)
    (hl : getSolutions (solve_equation_numeric f newtonO brentqO equation varName d0 d1 prec)
      = some l) :
    List.Sorted (· < ·) l ∧
    ∀ r ∈ l, ∃ s, (d0 ≤ s ∧ s ≤ d1) ∧ r = pyRound s prec ∧
      |r - s| ≤ 1/2 * (10:ℚ) ^ (-prec) := by
  rw [getSolutions_solve_equation_numeric] at hl
  injection hl with hl
  subst hl
  refine ⟨pySortedSet_sorted _, ?_⟩
  intro r hr
  rw [pySortedSet_mem] at hr
  obtain ⟨s, hs, hrs⟩ := solveEquationNumericCore_mem f newtonO brentqO equation d0 d1 prec
    hd hbr r hr
  refine ⟨s, hs, hrs, ?_⟩
  rw [hrs]
  exact pyRound_close s prec

/-- Witness for the C5 amended theorem at a concrete request. -/
theorem C5_solutions_sorted_rounded_witness :
    List.Sorted (· < ·) [(1:ℚ)] ∧
    ∀ r ∈ [(1:ℚ)], ∃ s, ((0:ℚ) ≤ s ∧ s ≤ 24/25) ∧ r = pyRound s 1 ∧
      |r - s| ≤ 1/2 * (10:ℚ) ^ (-(1:ℤ)) :=
  C5_solutions_sorted_rounded (fun q => Except.ok (q - 24/25)) (fun _ => some (24/25))
    (fun _ _ => none) "x - 0.96" "x" 0 (24/25) 1 (by norm_num)
    (fun a b s h => Option.noConfusion h) [1] (by with_unfolding_all rfl)

/-! ## ODE solver

Embedding of `solve_ode` (`numpy_solver.py` lines 218-345).  The
evaluated right-hand side `f(x, y)` is the parameter `f` (the Python
`ode_func` returns NaN instead of raising, so `f` is total), and the
`solve_ivp` call is the oracle `rkO` (`Except.error` = a raised
exception caught by the outer handler). -/

/-- Prefix test on character lists. -/
def isPrefixL : List Char → List Char → Bool
  | [], _ => true
  | _ :: _, [] => false
  | p :: ps, c :: cs => p = c && isPrefixL ps cs

/-- Python substring containment `pat in s`. -/
def containsSub : List Char → List Char → Bool
  | [], pat => pat.isEmpty
  | c :: t, pat => isPrefixL pat (c :: t) || containsSub t pat

/-- The right-hand-side text selected from the ODE equation string
(lines 234-239): on `"lhs = rhs"` take the stripped right side when the
left mentions `dy/dx` or `y` followed by a prime, else the stripped left
side. -/
def odeRhsText (equation : String) : String :=
  match breakAtChar '=' equation.toList with
  | some (lhs, rhs) =>
    if containsSub lhs "dy/dx".toList || containsSub lhs ['y', '\x27'] then
      String.mk (trimL rhs)
    else String.mk (trimL lhs)
  | none => equation

/-- Result of a `scipy.integrate.solve_ivp` call as observed by
`solve_ode`: success flag, message, evaluation count and the dense-output
solution function. -/
structure RKResult where
  success : Bool
  message : String
  nfev : ℕ
  sol : ℚ → ℚ

/-- The explicit-Euler iterates of lines 316-329: `y 0` is the initial
condition and `y (i+1) = y i + h * f (x i) (y i)` where `x i = x0 + i*h`
is the `i`-th uniform sample (`numpy.linspace` samples coincide exactly
with `x0 + i*h` in exact arithmetic). -/
def eulerY (f : ℚ → ℚ → ℚ) (x0 h y0 : ℚ) : ℕ → ℚ
  | 0 => y0
  | i + 1 => eulerY f x0 h y0 i + h * f (x0 + (i : ℚ) * h) (eulerY f x0 h y0 i)

/-- Embedding of `solve_ode` (lines 218-345).  `numPoints = 1` raises a
division by zero computing the step and `numPoints = 0` an index error
writing the initial condition; both land in the outer handler. -/
def solve_ode (f : ℚ → ℚ → ℚ) (rkO : Except String RKResult) (equation : String)
    (y0 x0 xEnd : ℚ) (numPoints : ℕ) (method : String) (maxStep tolerance : ℚ) : JObj :=
  let eqn := preprocess_equation (odeRhsText equation)
  let steps0 := [s!"ODE to solve: dy/dx = {eqn}",
                 s!"Initial condition: y({x0}) = {y0}",
                 s!"Integration range: [{x0}, {xEnd}]"]
  if method = "RK45" then
    match rkO with
    | Except.error e => errObj s!"Error solving ODE: {e}"
    | Except.ok res =>
      if res.success = false then errObj s!"ODE solver failed: {res.message}"
      else
        [("x", JVal.arr ((linspace x0 xEnd numPoints).map JVal.num)),
         ("y", JVal.arr (((linspace x0 xEnd numPoints).map res.sol).map JVal.num)),
         ("equation", JVal.str eqn),
         ("method", JVal.str "RK45"),
         ("success", JVal.bool true),
         ("message", JVal.str res.message),
         ("steps", JVal.arr ((steps0 ++
           ["Using Runge-Kutta 4(5) method with adaptive step size",
            s!"Tolerance: {tolerance}", s!"ODE solver status: {res.message}",
            s!"Function evaluations: {res.nfev}"]).map JVal.str))]
  else if method = "Euler" then
    if numPoints = 0 then
      errObj "Error solving ODE: index 0 is out of bounds for axis 0 with size 0"
    else if numPoints = 1 then
      errObj "Error solving ODE: float division by zero"
    else
      [("x", JVal.arr ((linspace x0 xEnd numPoints).map JVal.num)),
       ("y", JVal.arr (((List.range numPoints).map
         (eulerY f x0 ((xEnd - x0) / ((numPoints : ℚ) - 1)) y0)).map JVal.num)),
       ("equation", JVal.str eqn),
       ("method", JVal.str "Euler"),
       ("success", JVal.bool true),
       ("message", JVal.str "Solution computed using Euler\x27s method"),
       ("steps", JVal.arr ((steps0 ++
         ["Using Euler\x27s method with fixed step size",
          s!"Step size: {(xEnd - x0) / ((numPoints : ℚ) - 1)}"]).map JVal.str))]
  else errObj s!"Unsupported method: {method}"

/-- Claim C6: with method "Euler" the returned curve satisfies the
explicit-Euler recurrence with step `h = (xEnd - x0)/(n - 1)`: the "x"
field holds the `n` uniform samples, `y[0]` is the initial condition, and
`y[i] = y[i-1] + h * f(x[i-1], y[i-1])` for `1 ≤ i < n`. -/
theorem C6_euler_recurrence (f : ℚ → ℚ → ℚ) (rkO : Except String RKResult)
    (equation : String) (y0 x0 xEnd maxStep tolerance : ℚ) (n i : ℕ)
    (hn : 2 ≤ n) (hi1 : 1 ≤ i) (hin : i < n) :
    ∃ ys : List ℚ,
      jget (solve_ode f rkO equation y0 x0 xEnd n "Euler" maxStep tolerance) "y"
        = some (JVal.arr (ys.map JVal.num)) ∧
      jget (solve_ode f rkO equation y0 x0 xEnd n "Euler" maxStep tolerance) "x"
        = some (JVal.arr ((linspace x0 xEnd n).map JVal.num)) ∧
      ys.length = n ∧
      ys[0]? = some y0 ∧
      (linspace x0 xEnd n)[i-1]? =
        some (x0 + ((i : ℚ) - 1) * ((xEnd - x0) / ((n : ℚ) - 1))) ∧
      ∃ yp, ys[i-1]? = some yp ∧
        ys[i]? = some (yp + ((xEnd - x0) / ((n : ℚ) - 1)) *
          f (x0 + ((i : ℚ) - 1) * ((xEnd - x0) / ((n : ℚ) - 1))) yp) := by
  have hmeth : ¬ ("Euler" : String) = "RK45" := by decide
  have h0 : ¬ n = 0 := by omega
  have h1 : ¬ n = 1 := by omega
  refine ⟨(List.range n).map (eulerY f x0 ((xEnd - x0) / ((n : ℚ) - 1)) y0), ?_, ?_, ?_, ?_, ?_, ?_⟩
  · unfold solve_ode
    rw [if_neg hmeth, if_pos rfl, if_neg h0, if_neg h1]
    simp [jget]
  · unfold solve_ode
    rw [if_neg hmeth, if_pos rfl, if_neg h0, if_neg h1]
    simp [jget]
  · simp
  · rw [List.getElem?_map, List.getElem?_range (by omega : 0 < n)]
    rfl
  · unfold linspace
    rw [List.getElem?_map, List.getElem?_range (by omega : i - 1 < n)]
    have hc : ((i - 1 : ℕ) : ℚ) = (i : ℚ) - 1 := by
      push_cast [Nat.cast_sub hi1]
      ring
    simp [hc]
  · obtain ⟨j, hj⟩ : ∃ j, i = j + 1 := ⟨i - 1, by omega⟩
    subst hj
    refine ⟨eulerY f x0 ((xEnd - x0) / ((n : ℚ) - 1)) y0 j, ?_, ?_⟩
    · rw [List.getElem?_map, List.getElem?_range (by omega : j + 1 - 1 < n)]
      simp
    · rw [List.getElem?_map, List.getElem?_range (by omega : j + 1 < n)]
      have hc : ((j + 1 : ℕ) : ℚ) - 1 = (j : ℚ) := by push_cast; ring
      simp [eulerY, hc]

/-- Witness for the C6 theorem: `dy/dx = y`, `y(0) = 1`, three Euler
points on `[0, 1]`, checked at `i = 1`. -/
theorem C6_euler_recurrence_witness :
    ∃ ys : List ℚ,
      jget (solve_ode (fun _ y => y) (Except.error "") "y" 1 0 1 3 "Euler" (1/10) (1/1000000)) "y"
        = some (JVal.arr (ys.map JVal.num)) ∧
      jget (solve_ode (fun _ y => y) (Except.error "") "y" 1 0 1 3 "Euler" (1/10) (1/1000000)) "x"
        = some (JVal.arr ((linspace 0 1 3).map JVal.num)) ∧
      ys.length = 3 ∧
      ys[0]? = some 1 ∧
      (linspace 0 1 3)[1-1]? =
        some (0 + (((1:ℕ) : ℚ) - 1) * ((1 - 0) / (((3:ℕ) : ℚ) - 1))) ∧
      ∃ yp, ys[1-1]? = some yp ∧
        ys[1]? = some (yp + ((1 - 0) / (((3:ℕ) : ℚ) - 1)) *
          (fun _ y => y) (0 + (((1:ℕ) : ℚ) - 1) * ((1 - 0) / (((3:ℕ) : ℚ) - 1))) yp) :=
  C6_euler_recurrence (fun _ y => y) (Except.error "") "y" 1 0 1 (1/10) (1/1000000) 3 1
    (by norm_num) (by norm_num) (by norm_num)

/-! ## SymPy value model

What `sympy_solver.py` observes of SymPy objects: a solution either
converts to a float (modelled `SymNum.rat`) or raises on `float()`
(modelled `SymNum.sym` carrying its rendering); arithmetic on mixed
values stays symbolic; comparing a symbolic value with `>` raises
`TypeError: cannot determine truth value of Relational`, while `==` is
structural and never raises. -/

inductive SymNum where
  | rat : ℚ → SymNum
  | sym : String → SymNum
deriving DecidableEq

/-- Rendering of a SymPy number (the exact text differs from SymPy's
printer; no claim depends on it). -/
def SymNum.render : SymNum → String
  | SymNum.rat q => toString q
  | SymNum.sym s => s

def SymNum.neg : SymNum → SymNum
  | SymNum.rat q => SymNum.rat (-q)
  | SymNum.sym s => SymNum.sym (String.append "-" s)

def SymNum.add : SymNum → SymNum → SymNum
  | SymNum.rat a, SymNum.rat b => SymNum.rat (a + b)
  | a, b => SymNum.sym (a.render ++ " + " ++ b.render)

def SymNum.sub : SymNum → SymNum → SymNum
  | SymNum.rat a, SymNum.rat b => SymNum.rat (a - b)
  | a, b => SymNum.sym (a.render ++ " - " ++ b.render)

def SymNum.mul : SymNum → SymNum → SymNum
  | SymNum.rat a, SymNum.rat b => SymNum.rat (a * b)
  | a, b => SymNum.sym (a.render ++ "*" ++ b.render)

def SymNum.div : SymNum → SymNum → SymNum
  | SymNum.rat a, SymNum.rat b => SymNum.rat (a / b)
  | a, b => SymNum.sym (a.render ++ "/" ++ b.render)

def SymNum.pow (a : SymNum) (n : ℕ) : SymNum :=
  match a with
  | SymNum.rat q => SymNum.rat (q ^ n)
  | SymNum.sym s => SymNum.sym (s ++ "**" ++ toString n)

/-- Exact square root of a rational, when it exists. -/
def ratSqrt (q : ℚ) : Option ℚ :=
  let n := q.num.toNat.sqrt
  let d := q.den.sqrt
  if (n : ℤ) * (n : ℤ) = q.num ∧ d * d = q.den then some ((n : ℚ) / (d : ℚ)) else none

/-- SymPy `sqrt` as it appears in narration strings. -/
def SymNum.sqrtS : SymNum → SymNum
  | SymNum.rat q =>
    match ratSqrt q with
    | some r => SymNum.rat r
    | none => SymNum.sym (String.append "sqrt(" (String.append (toString q) ")"))
  | SymNum.sym s => SymNum.sym (String.append "sqrt(" (String.append s ")"))

/-- SymPy `a > b`: boolean only when both sides are numbers, otherwise the
unevaluated relational's truth value raises. -/
def SymNum.gtE : SymNum → SymNum → Except String Bool
  | SymNum.rat a, SymNum.rat b => Except.ok (decide (b < a))
  | _, _ => Except.error "cannot determine truth value of Relational"

/-- SymPy structural `==` (never raises). -/
def SymNum.eqb : SymNum → SymNum → Bool
  | SymNum.rat a, SymNum.rat b => decide (a = b)
  | SymNum.sym a, SymNum.sym b => decide (a = b)
  | _, _ => false

/-- A SymPy expression as observed by `generate_equation_steps` and
`solve_symbolic_equation`: rendering, `is_polynomial(var)`, the degree
and coefficient list of `as_poly(var)`, and whether `var` is among the
free symbols. -/
structure SymExpr where
  str : String
  isPolynomial : Bool
  degree : ℕ
  allCoeffs : List SymNum
  hasVar : Bool
deriving DecidableEq

/-- A solution object returned by SymPy `solve`: `float(sol)` succeeds
exactly when `val` is a number, and `isReal` is the three-valued
`sol.is_real`. -/
structure SymSol where
  val : SymNum
  isReal : Option Bool

/-- Python `str.split(sep)` on character lists. -/
def splitOnChar (sep : Char) : List Char → List (List Char)
  | [] => [[]]
  | c :: t =>
    if c = sep then [] :: splitOnChar sep t
    else
      match splitOnChar sep t with
      | [] => [[c]]
      | g :: gs => (c :: g) :: gs

/-! ## Symbolic step narrator

Embedding of `generate_equation_steps` (`sympy_solver.py` lines 28-155).
`simplifyO`, `collectO` model `simplify`/`collect`; `factorO` models
`factor` inside its `try` (`none` = raised); `invertO` models `_invert`
inside its `try` (`none` = raised, otherwise whether the returned lhs is
the variable, and the rendered rhs).  The whole narrator returns
`Except.error` when the unguarded `discriminant > 0` comparison raises on
a symbolic discriminant. -/

def finalNarrStep : List String :=
  ["Finally, solving the equation using SymPy\x27s solve function"]

def generate_equation_steps (simplifyO collectO : SymExpr → SymExpr)
    (factorO : SymExpr → Option SymExpr) (invertO : SymExpr → Option (Bool × String))
    (expr0 : SymExpr) (varName : String) : Except String (List String) :=
  let is_polynomial := expr0.isPolynomial
  let has_trig := containsSub expr0.str.toList "sin".toList ||
    containsSub expr0.str.toList "cos".toList || containsSub expr0.str.toList "tan".toList
  let has_log := containsSub expr0.str.toList "log".toList
  let has_exp := containsSub expr0.str.toList "exp".toList
  let e0s := expr0.str
  let steps1 := [s!"Starting with expression: {e0s} = 0"]
  let simple := simplifyO expr0
  let (expr1, steps2) :=
    if simple ≠ expr0 then
      let ss := simple.str
      (simple, steps1 ++ [s!"Simplifying: {ss} = 0"])
    else (expr0, steps1)
  if is_polynomial then
    let degree := expr1.degree
    let steps3 := steps2 ++ [s!"This is a polynomial equation of degree {degree}"]
    let collected := collectO expr1
    let (expr2, steps4) :=
      if collected ≠ expr1 then
        let cs := collected.str
        (collected, steps3 ++ [s!"Rearranging to standard form: {cs} = 0"])
      else (expr1, steps3)
    let steps5 :=
      match factorO expr2 with
      | none => steps4 ++ ["Could not factor further"]
      | some factored =>
        if factored ≠ expr2 then
          let fs := factored.str
          let s6 := steps4 ++ [s!"Factoring: {fs} = 0"]
          if containsSub factored.str.toList ['*'] then
            let factors := splitOnChar '*'
              (factored.str.toList.filter (fun c => ¬(c = '(' ∨ c = ')')))
            s6 ++ ["Using the zero-product property: if a*b = 0, then either a = 0 or b = 0"]
               ++ factors.map (fun fcs =>
                    let fstr := String.mk fcs
                    s!"Solving {fstr} = 0")
          else s6
        else steps4
    if degree = 1 then
      let steps6 := steps5 ++ ["For linear equations ax + b = 0, the solution is x = -b/a"]
      match expr2.allCoeffs with
      | [a, b] =>
        let as := a.render
        let bs := b.render
        let nbs := (SymNum.neg b).render
        let sols := ((SymNum.neg b).div a).render
        Except.ok (steps6 ++ [s!"Here a = {as} and b = {bs}",
          s!"Substituting: x = {nbs}/{as} = {sols}"] ++ finalNarrStep)
      | _ => Except.ok (steps6 ++ finalNarrStep)
    else if degree = 2 then
      let steps6 := steps5 ++
        ["For quadratic equations ax² + bx + c = 0, we can use the quadratic formula:",
         "x = (-b ± √(b² - 4ac)) / (2a)"]
      let cba :=
        match expr2.allCoeffs with
        | [c0, b0, a0] => (c0, b0, a0)
        | l => (l.headD (SymNum.rat 0), SymNum.rat 0, SymNum.rat 0)
      let c := cba.1
      let b := cba.2.1
      let a := cba.2.2
      let disc := (b.pow 2).sub (((SymNum.rat 4).mul a).mul c)
      let as := a.render
      let bs := b.render
      let cs := c.render
      let ds := disc.render
      let steps7 := steps6 ++ [s!"Here a = {as}, b = {bs}, c = {cs}",
        s!"Calculate the discriminant: b² - 4ac = {ds}"]
      match disc.gtE (SymNum.rat 0) with
      | Except.error e => Except.error e
      | Except.ok true =>
        let nbs := (SymNum.neg b).render
        let tas := ((SymNum.rat 2).mul a).render
        let x1s := (((SymNum.neg b).add disc.sqrtS).div ((SymNum.rat 2).mul a)).render
        let x2s := (((SymNum.neg b).sub disc.sqrtS).div ((SymNum.rat 2).mul a)).render
        Except.ok (steps7 ++ ["Discriminant > 0, so there are two real solutions",
          s!"x₁ = ({nbs} + √{ds}) / {tas} = {x1s}",
          s!"x₂ = ({nbs} - √{ds}) / {tas} = {x2s}"] ++ finalNarrStep)
      | Except.ok false =>
        if disc.eqb (SymNum.rat 0) then
          let nbs := (SymNum.neg b).render
          let tas := ((SymNum.rat 2).mul a).render
          let xs := ((SymNum.neg b).div ((SymNum.rat 2).mul a)).render
          Except.ok (steps7 ++ ["Discriminant = 0, so there is one repeated solution",
            s!"x = {nbs} / {tas} = {xs}"] ++ finalNarrStep)
        else
          Except.ok (steps7 ++ ["Discriminant < 0, so there are two complex solutions"]
            ++ finalNarrStep)
    else Except.ok (steps5 ++ finalNarrStep)
  else if has_trig then
    let steps3 := steps2 ++ ["This is a trigonometric equation",
      "For trigonometric equations, I\x27ll look for values where the expression equals zero"]
    let simple2 := simplifyO expr1
    let steps4 :=
      if simple2 ≠ expr1 then
        let ss := simple2.str
        steps3 ++ [s!"Simplifying trigonometric expression: {ss} = 0"]
      else steps3
    Except.ok (steps4 ++ finalNarrStep)
  else if has_log then
    let steps3 := steps2 ++ ["This is a logarithmic equation",
      "For logarithmic equations, I\x27ll apply properties of logarithms to isolate the variable"]
    let simple2 := simplifyO expr1
    let steps4 :=
      if simple2 ≠ expr1 then
        let ss := simple2.str
        steps3 ++ [s!"Simplifying logarithmic expression: {ss} = 0"]
      else steps3
    Except.ok (steps4 ++ finalNarrStep)
  else if has_exp then
    let steps3 := steps2 ++ ["This is an exponential equation",
      "For exponential equations, I\x27ll apply properties of exponents to isolate the variable"]
    let simple2 := simplifyO expr1
    let steps4 :=
      if simple2 ≠ expr1 then
        let ss := simple2.str
        steps3 ++ [s!"Simplifying exponential expression: {ss} = 0"]
      else steps3
    Except.ok (steps4 ++ finalNarrStep)
  else
    let steps3 := steps2 ++ ["General approach: isolating the variable"]
    let steps4 :=
      if expr1.hasVar then
        match invertO expr1 with
        | none => steps3 ++ ["Could not isolate variable directly"]
        | some (isVar, rhs) =>
          if isVar then steps3 ++ [s!"Isolating {varName}: {varName} = {rhs}"] else steps3
      else steps3
    Except.ok (steps4 ++ finalNarrStep)

/-! ## Symbolic single-equation solver

Embedding of `solve_symbolic_equation` (`sympy_solver.py` lines 157-224). -/

def validatedMsg (q : ℚ) : String := s!"Validated solution: {q}"

def skipNonNumericMsg (s : String) : String := s!"Skipping non-numeric solution: {s}"

def skipComplexMsg (s : String) : String := s!"Skipping complex solution: {s}"

/-- One iteration of the solution conversion loop (lines 193-211):
`float(sol)` succeeds for a numeric value, which is kept (rounded) when
inside the domain; otherwise the handler retries `float` only when
`is_real` is `True` — it raises again, so the solution is skipped as
non-numeric — and all remaining cases are skipped as complex. -/
def symFilterStep (d0 d1 : ℚ) (prec : ℤ) (acc : List ℚ × List String) (sol : SymSol) :
    List ℚ × List String :=
  match sol.val with
  | SymNum.rat q =>
    if d0 ≤ q ∧ q ≤ d1 then (acc.1 ++ [pyRound q prec], acc.2 ++ [validatedMsg q])
    else acc
  | SymNum.sym s =>
    match sol.isReal with
    | some true => (acc.1, acc.2 ++ [skipNonNumericMsg s])
    | _ => (acc.1, acc.2 ++ [skipComplexMsg s])

/-- The conversion loop over the raw solutions. -/
def symFilterPass (d0 d1 : ℚ) (prec : ℤ) :
    List SymSol → List ℚ × List String → List ℚ × List String
  | [], acc => acc
  | sol :: rest, acc => symFilterPass d0 d1 prec rest (symFilterStep d0 d1 prec acc sol)

/-- The numeric value kept from one raw solution, if any. -/
def keptValue (d0 d1 : ℚ) (prec : ℤ) (sol : SymSol) : Option ℚ :=
  match sol.val with
  | SymNum.rat q => if d0 ≤ q ∧ q ≤ d1 then some (pyRound q prec) else none
  | SymNum.sym _ => none

theorem symFilterPass_sols (d0 d1 : ℚ) (prec : ℤ) (raws : List SymSol) :
    ∀ acc, (symFilterPass d0 d1 prec raws acc).1 =
      acc.1 ++ raws.filterMap (keptValue d0 d1 prec) := by
  induction raws with
  | nil => intro acc; simp [symFilterPass]
  | cons sol rest ih =>
    intro acc
    simp only [symFilterPass, ih, List.filterMap_cons]
    cases hv : sol.val with
    | rat q =>
      simp only [symFilterStep, hv, keptValue]
      by_cases hdq : d0 ≤ q ∧ q ≤ d1
      · rw [if_pos hdq, if_pos hdq]
        simp
      · rw [if_neg hdq, if_neg hdq]
    | sym s =>
      simp only [symFilterStep, hv, keptValue]
      cases sol.isReal with
      | none => rfl
      | some b => cases b <;> rfl

theorem symFilterPass_steps_mono (d0 d1 : ℚ) (prec : ℤ) (raws : List SymSol) :
    ∀ acc msg, msg ∈ acc.2 → msg ∈ (symFilterPass d0 d1 prec raws acc).2 := by
  induction raws with
  | nil => intro acc msg h; exact h
  | cons sol rest ih =>
    intro acc msg h
    simp only [symFilterPass]
    refine ih _ msg ?_
    unfold symFilterStep
    split
    · split
      · exact List.mem_append.mpr (Or.inl h)
      · exact h
    · split
      · exact List.mem_append.mpr (Or.inl h)
      · exact List.mem_append.mpr (Or.inl h)

theorem symFilterPass_skip_steps (d0 d1 : ℚ) (prec : ℤ) (raws : List SymSol) :
    ∀ acc sol, sol ∈ raws → ∀ s, sol.val = SymNum.sym s →
      skipNonNumericMsg s ∈ (symFilterPass d0 d1 prec raws acc).2 ∨
      skipComplexMsg s ∈ (symFilterPass d0 d1 prec raws acc).2 := by
  induction raws with
  | nil => intro acc sol h; exact absurd h (List.not_mem_nil sol)
  | cons sol0 rest ih =>
    intro acc sol hmem s hs
    simp only [symFilterPass]
    rcases List.mem_cons.mp hmem with heq | htail
    · subst heq
      unfold symFilterStep
      rw [hs]
      cases hir : sol.isReal with
      | some b =>
        cases b
        · right
          exact symFilterPass_steps_mono d0 d1 prec rest _ _ (List.mem_append.mpr (Or.inr (by simp)))
        · left
          exact symFilterPass_steps_mono d0 d1 prec rest _ _ (List.mem_append.mpr (Or.inr (by simp)))
      | none =>
        right
        exact symFilterPass_steps_mono d0 d1 prec rest _ _ (List.mem_append.mpr (Or.inr (by simp)))
    · exact ih _ sol htail s hs

/-- The parse-echo steps at the head of the symbolic solver's log. -/
def parsedSteps (eqn : String) (expr : SymExpr) : List String :=
  let es := expr.str
  [s!"Using symbolic method to solve: {eqn} = 0", s!"Expression parsed as: {es}"]

/-- The `f"Raw solutions: {symbolic_solutions}"` step (line 190). -/
def rawSolsMsg (raws : List SymSol) : String :=
  let rawsStr := String.intercalate ", " (raws.map (fun r => SymNum.render r.val))
  s!"Raw solutions: [{rawsStr}]"

/-- The success object built at lines 216-221. -/
def solveSymbolicSuccess (d0 d1 : ℚ) (prec : ℤ) (raws : List SymSol)
    (eqn varName : String) (steps2 : List String) : JObj :=
  [("solutions", JVal.arr ((pySortedSet
      (symFilterPass d0 d1 prec raws ([], steps2 ++ [rawSolsMsg raws])).1).map JVal.num)),
   ("expression", JVal.str eqn),
   ("variable", JVal.str varName),
   ("steps", JVal.arr
      ((symFilterPass d0 d1 prec raws ([], steps2 ++ [rawSolsMsg raws])).2.map JVal.str))]

/-- Embedding of `solve_symbolic_equation` (lines 157-224).  `sympifyO`
models `sympify` (error = `SympifyError` or any other raise), `solveO`
models SymPy `solve`; both errors land in the outer handler, as does an
error raised inside `generate_equation_steps`. -/
def solve_symbolic_equation (sympifyO : String → Except String SymExpr)
    (solveO : SymExpr → Except String (List SymSol))
    (simplifyO collectO : SymExpr → SymExpr) (factorO : SymExpr → Option SymExpr)
    (invertO : SymExpr → Option (Bool × String))
    (equation varName : String) (d0 d1 : ℚ) (prec : ℤ) (showSteps : Bool) : JObj :=
  match sympifyO (standardizeEquation equation) with
  | Except.error e => errObj s!"Error solving equation: {e}"
  | Except.ok expr =>
    match (if showSteps then
        (generate_equation_steps simplifyO collectO factorO invertO expr varName).map
          (fun gsteps => parsedSteps (standardizeEquation equation) expr ++ gsteps)
      else Except.ok (parsedSteps (standardizeEquation equation) expr)) with
    | Except.error e => errObj s!"Error solving equation: {e}"
    | Except.ok steps2 =>
      match solveO expr with
      | Except.error e => errObj s!"Error solving equation: {e}"
      | Except.ok raws =>
        solveSymbolicSuccess d0 d1 prec raws (standardizeEquation equation) varName steps2

/-- Extracts the "steps" field of a result as a list of strings. -/
def getSteps (r : JObj) : Option (List String) :=
  match jget r "steps" with
  | some (JVal.arr l) => l.mapM (fun v => match v with | JVal.str s => some s | _ => none)
  | _ => none

theorem getStrs_map_str (l : List String) :
    (l.map JVal.str).mapM (fun v => match v with | JVal.str s => some s | _ => none) = some l := by
  induction l with
  | nil => rfl
  | cons q t ih =>
    simp only [List.map_cons, List.mapM_cons, ih]
    rfl

/-- The concrete SymPy expression `x**2 + k` as the solver observes it:
a polynomial in `x` of degree 2 with coefficient list `[1, 0, k]`. -/
def exprXK : SymExpr :=
  { str := "x**2 + k", isPolynomial := true, degree := 2,
    allCoeffs := [SymNum.rat 1, SymNum.rat 0, SymNum.sym "k"], hasVar := true }

/-- The raw solutions SymPy returns for `x**2 + k = 0`: two symbolic
roots `±sqrt(-k)` with undetermined `is_real`. -/
def rawsXK : List SymSol :=
  [{ val := SymNum.sym "-sqrt(-k)", isReal := none },
   { val := SymNum.sym "sqrt(-k)", isReal := none }]

/-- Claim C7: the showSteps flag changes the outcome on
`x^2 + k = 0` (variable `x`): with narration enabled the symbolic
discriminant comparison `discriminant > 0` raises and the whole response
becomes an error object, while the same request with narration disabled
succeeds with solutions `[]`. -/
theorem C7_steps_flag_changes_outcome :
    (getErr (solve_symbolic_equation (fun _ => Except.ok exprXK) (fun _ => Except.ok rawsXK)
        id id (fun e => some e) (fun _ => none) "x^2 + k" "x" (-1000) 1000 4 true)
      = some "Error solving equation: cannot determine truth value of Relational" ∧
     jkeys (solve_symbolic_equation (fun _ => Except.ok exprXK) (fun _ => Except.ok rawsXK)
        id id (fun e => some e) (fun _ => none) "x^2 + k" "x" (-1000) 1000 4 true)
      = ["error"]) ∧
    (getErr (solve_symbolic_equation (fun _ => Except.ok exprXK) (fun _ => Except.ok rawsXK)
        id id (fun e => some e) (fun _ => none) "x^2 + k" "x" (-1000) 1000 4 false)
      = none ∧
     getSolutions (solve_symbolic_equation (fun _ => Except.ok exprXK) (fun _ => Except.ok rawsXK)
        id id (fun e => some e) (fun _ => none) "x^2 + k" "x" (-1000) 1000 4 false)
      = some []) := by
  refine ⟨⟨?_, ?_⟩, ?_, ?_⟩ <;> with_unfolding_all rfl

/-- Success-shape lemma: the "solutions" field of the symbolic success
object. -/
theorem getSolutions_solveSymbolicSuccess (d0 d1 : ℚ) (prec : ℤ) (raws : List SymSol)
    (eqn varName : String) (steps2 : List String) :
    getSolutions (solveSymbolicSuccess d0 d1 prec raws eqn varName steps2) =
      some (pySortedSet (symFilterPass d0 d1 prec raws ([], steps2 ++ [rawSolsMsg raws])).1) := by
  unfold solveSymbolicSuccess getSolutions jget
  rw [if_pos rfl]
  exact getNums_map_num _

/-- Success-shape lemma: the "steps" field of the symbolic success
object. -/
theorem getSteps_solveSymbolicSuccess (d0 d1 : ℚ) (prec : ℤ) (raws : List SymSol)
    (eqn varName : String) (steps2 : List String) :
    getSteps (solveSymbolicSuccess d0 d1 prec raws eqn varName steps2) =
      some (symFilterPass d0 d1 prec raws ([], steps2 ++ [rawSolsMsg raws])).2 := by
  unfold solveSymbolicSuccess getSteps
  simp only [jget, reduceIte]
  exact getStrs_map_str _

/-- The concrete SymPy expression `x - 0.96` as the solver observes it. -/
def expr96 : SymExpr :=
  { str := "x - 0.96", isPolynomial := true, degree := 1,
    allCoeffs := [SymNum.rat 1, SymNum.rat (-(24/25))], hasVar := true }

/-- Claim C9, counterexample: for `x - 0.96 = 0` with domain
`[0, 24/25]` and precision 1, the real root `24/25` passes the domain
check but is stored rounded as `1.0`, so the returned "solutions" list
`[1]` has an element outside the domain. -/
theorem C9_counterexample :
    getSolutions (solve_symbolic_equation (fun _ => Except.ok expr96)
      (fun _ => Except.ok [{ val := SymNum.rat (24/25), isReal := some true }])
      id id (fun e => some e) (fun _ => none) "x - 0.96" "x" 0 (24/25) 1 false)
      = some [1] ∧
    ¬((1:ℚ) ≤ 24/25) := by
  constructor
  · with_unfolding_all rfl
  · norm_num

/-- Claim C9 (amended): on success, the "solutions" list of
`solve_symbolic_equation` is exactly the sorted deduplicated roundings of
the float-convertible raw solutions lying within the domain — symbolic
and complex raw solutions are omitted from it, each leaving a skip note
in the step log — and every element is within half of `10^(-precision)`
of its in-domain pre-rounding value, though the rounded value itself may
fall outside the domain. -/
theorem C9_solutions_characterized (sympifyO : String → Except String SymExpr)
    (raws : List SymSol) (simplifyO collectO : SymExpr → SymExpr)
    (factorO : SymExpr → Option SymExpr) (invertO : SymExpr → Option (Bool × String))
    (equation varName : String) (d0 d1 : ℚ) (prec : ℤ) (showSteps : Bool)
    (l : List ℚ)
    (hl : getSolutions (solve_symbolic_equation sympifyO (fun _ => Except.ok raws)
      simplifyO collectO factorO invertO equation varName d0 d1 prec showSteps) = some l) :
    l = pySortedSet (raws.filterMap (keptValue d0 d1 prec)) ∧
    (∀ r ∈ l, ∃ s, (d0 ≤ s ∧ s ≤ d1) ∧ r = pyRound s prec ∧
      |r - s| ≤ 1/2 * (10:ℚ) ^ (-prec)) ∧
    (∀ sol ∈ raws, ∀ s, sol.val = SymNum.sym s →
      ∃ steps, getSteps (solve_symbolic_equation sympifyO (fun _ => Except.ok raws)
          simplifyO collectO factorO invertO equation varName d0 d1 prec showSteps)
        = some steps ∧ (skipNonNumericMsg s ∈ steps ∨ skipComplexMsg s ∈ steps)) := by
  cases hsy : sympifyO (standardizeEquation equation) with
  | error e =>
    have hrun : solve_symbolic_equation sympifyO (fun _ => Except.ok raws)
        simplifyO collectO factorO invertO equation varName d0 d1 prec showSteps
        = errObj s!"Error solving equation: {e}" := by
      unfold solve_symbolic_equation
      simp only [hsy]
    rw [hrun] at hl
    exact absurd hl (by simp [getSolutions, errObj, jget])
  | ok expr =>
    cases hst : (if showSteps then
        (generate_equation_steps simplifyO collectO factorO invertO expr varName).map
          (fun gsteps => parsedSteps (standardizeEquation equation) expr ++ gsteps)
      else Except.ok (parsedSteps (standardizeEquation equation) expr)) with
    | error e =>
      have hrun : solve_symbolic_equation sympifyO (fun _ => Except.ok raws)
          simplifyO collectO factorO invertO equation varName d0 d1 prec showSteps
          = errObj s!"Error solving equation: {e}" := by
        unfold solve_symbolic_equation
        simp only [hsy, hst]
      rw [hrun] at hl
      exact absurd hl (by simp [getSolutions, errObj, jget])
    | ok steps2 =>
      have hrun : solve_symbolic_equation sympifyO (fun _ => Except.ok raws)
          simplifyO collectO factorO invertO equation varName d0 d1 prec showSteps
          = solveSymbolicSuccess d0 d1 prec raws (standardizeEquation equation) varName steps2 := by
        unfold solve_symbolic_equation
        simp only [hsy, hst]
      rw [hrun] at hl ⊢
      rw [getSolutions_solveSymbolicSuccess] at hl
      injection hl with hl
      subst hl
      have hsols := symFilterPass_sols d0 d1 prec raws
        ([], steps2 ++ [rawSolsMsg raws])
      refine ⟨?_, ?_, ?_⟩
      · rw [hsols]
        simp
      · intro r hr
        rw [pySortedSet_mem, hsols] at hr
        simp only [List.nil_append, List.mem_filterMap] at hr
        obtain ⟨sol, _, hkept⟩ := hr
        unfold keptValue at hkept
        split at hkept
        · next q hq =>
          split at hkept
          · next hdq =>
            injection hkept with hkept
            exact ⟨q, hdq, hkept.symm, by rw [← hkept]; exact pyRound_close q prec⟩
          · exact absurd hkept (by simp)
        · exact absurd hkept (by simp)
      · intro sol hmem s hs
        refine ⟨_, getSteps_solveSymbolicSuccess d0 d1 prec raws
          (standardizeEquation equation) varName steps2, ?_⟩
        exact symFilterPass_skip_steps d0 d1 prec raws _ sol hmem s hs

/-- The raw solution list used by the C9 witness. -/
def raws96 : List SymSol :=
  [{ val := SymNum.rat (24/25), isReal := some true },
   { val := SymNum.sym "sqrt(-k)", isReal := none }]

/-- Witness for the C9 amended theorem at the `x - 0.96` request. -/
theorem C9_solutions_characterized_witness :
    [(1:ℚ)] = pySortedSet (raws96.filterMap (keptValue 0 (24/25) 1)) ∧
    (∀ r ∈ [(1:ℚ)], ∃ s, ((0:ℚ) ≤ s ∧ s ≤ 24/25) ∧ r = pyRound s 1 ∧
      |r - s| ≤ 1/2 * (10:ℚ) ^ (-(1:ℤ))) ∧
    (∀ sol ∈ raws96, ∀ s, sol.val = SymNum.sym s →
      ∃ steps, getSteps (solve_symbolic_equation (fun _ => Except.ok expr96)
          (fun _ => Except.ok raws96)
          id id (fun e => some e) (fun _ => none) "x - 0.96" "x" 0 (24/25) 1 false)
        = some steps ∧ (skipNonNumericMsg s ∈ steps ∨ skipComplexMsg s ∈ steps)) :=
  C9_solutions_characterized (fun _ => Except.ok expr96) raws96
    id id (fun e => some e) (fun _ => none) "x - 0.96" "x" 0 (24/25) 1 false [1]
    (by with_unfolding_all rfl)

/-! ## Symbolic system solver

Embedding of `solve_symbolic_system` (`sympy_solver.py` lines 226-300)
and the variable inference shared with the numeric linear solver
(`re.findall(r'[a-zA-Z]+', eq)`, set union, minus the fixed function
names, sorted). -/

/-- Maximal alphabetic runs collector (`re.findall(r'[a-zA-Z]+', s)`). -/
def alphaRunsAux : List Char → List Char → List (List Char)
  | [], cur => if cur.isEmpty then [] else [cur.reverse]
  | c :: t, cur =>
    if c.isAlpha then alphaRunsAux t (c :: cur)
    else if cur.isEmpty then alphaRunsAux t [] else cur.reverse :: alphaRunsAux t []

/-- All maximal alphabetic runs of a string, in order. -/
def alphaRuns (l : List Char) : List (List Char) := alphaRunsAux l []

/-- Lexicographic comparison of character lists by code point (the order
of Python `sorted` on strings). -/
def charsLe : List Char → List Char → Bool
  | [], _ => true
  | _ :: _, [] => false
  | a :: as, b :: bs => if a < b then true else if b < a then false else charsLe as bs

def strLeB (a b : String) : Bool := charsLe a.toList b.toList

/-- Variable inference used on both solver paths when the request has no
variables field: the set of alphabetic tokens of all equations minus the
known function names, sorted. -/
def inferVariables (equations : List String) : List String :=
  ((((equations.map (fun eq => (alphaRuns eq.toList).map String.mk)).flatten).dedup).filter
    (fun v => ¬ v ∈ ["sin", "cos", "tan", "log", "exp", "sqrt", "pi"])).insertionSort
    (fun a b => strLeB a b = true)

/-- The variable list after resolution (explicit or inferred). -/
def resolvedVars (equations variables0 : List String) : List String :=
  if variables0.isEmpty then inferVariables equations else variables0

def eqStepStr (i : ℕ) (eq : String) : String :=
  let j := i + 1
  s!"Equation {j}: {eq}"

/-- The header steps of the system solver log (lines 250-253). -/
def sysHeaderSteps (equations varsList : List String) : List String :=
  let vs := String.intercalate ", " varsList
  let n := equations.length
  [s!"Variables to solve for: {vs}", s!"System of {n} equations:"]
    ++ ((List.range equations.length).zip equations).map (fun p => eqStepStr p.1 p.2)

def parsedEqMsg (l r : String) : String := s!"Parsed equation: Eq({l}, {r})"

/-- Conversion of the equation strings into SymPy equations
(lines 260-272): split on the first `=` (right side `"0"` when absent),
strip, preprocess and sympify each side.  `sympifyO` returns the rendered
parsed expression; a raise aborts the whole conversion. -/
def parseSymEqs (sympifyO : String → Except String String) :
    List String → Except String (List (String × String) × List String)
  | [] => Except.ok ([], [])
  | eq :: rest =>
    match breakAtChar '=' eq.toList with
    | some (l, r) =>
      match sympifyO (preprocess_equation (String.mk (trimL l))) with
      | Except.error e => Except.error e
      | Except.ok ls =>
        match sympifyO (preprocess_equation (String.mk (trimL r))) with
        | Except.error e => Except.error e
        | Except.ok rs =>
          match parseSymEqs sympifyO rest with
          | Except.error e => Except.error e
          | Except.ok (eqs, lines) => Except.ok ((ls, rs) :: eqs, parsedEqMsg ls rs :: lines)
    | none =>
      match sympifyO (preprocess_equation (String.mk (trimL eq.toList))) with
      | Except.error e => Except.error e
      | Except.ok es =>
        match parseSymEqs sympifyO rest with
        | Except.error e => Except.error e
        | Except.ok (eqs, lines) => Except.ok ((es, "0") :: eqs, parsedEqMsg es "0" :: lines)

def solvedNumMsg (v : String) (q : ℚ) : String := s!"Solution for {v} = {q} ≈ {q}"

def solvedSymMsg (v sv : String) : String := s!"Solution for {v} = {sv} (symbolic)"

/-- The per-variable extraction from the first solution dict
(lines 282-291): a missing key raises a `KeyError` carrying the variable
(caught by the outer handler); a numeric value is stored as a float and a
symbolic one as its string. -/
def buildSysResult (d : List (String × SymNum)) :
    List String → Except String (List (String × JVal) × List String)
  | [] => Except.ok ([], [])
  | v :: vs =>
    match d.lookup v with
    | none => Except.error v
    | some value =>
      match buildSysResult d vs with
      | Except.error e => Except.error e
      | Except.ok (pairs, lines) =>
        match value with
        | SymNum.rat q => Except.ok ((v, JVal.num q) :: pairs, solvedNumMsg v q :: lines)
        | SymNum.sym sv => Except.ok ((v, JVal.str sv) :: pairs, solvedSymMsg v sv :: lines)

/-- Embedding of `solve_symbolic_system` (lines 226-300). -/
def solve_symbolic_system (sympifyO : String → Except String String)
    (solveSysO : List (String × String) → Except String (List (List (String × SymNum))))
    (equations variables0 : List String) (showSteps : Bool) : JObj :=
  if equations.isEmpty then errObj "No equations provided"
  else
    match parseSymEqs sympifyO equations with
    | Except.error e => errObj s!"Error solving system: {e}"
    | Except.ok (symEqs, parseLines) =>
      match solveSysO symEqs with
      | Except.error e => errObj s!"Error solving system: {e}"
      | Except.ok [] => errObj "No solution found for the system"
      | Except.ok (d :: _) =>
        match buildSysResult d (resolvedVars equations variables0) with
        | Except.error e => errObj s!"Error solving system: {e}"
        | Except.ok (pairs, valLines) =>
          [("solution", JVal.obj pairs),
           ("variables", JVal.arr ((resolvedVars equations variables0).map JVal.str)),
           ("steps", if showSteps then
              JVal.arr ((sysHeaderSteps equations (resolvedVars equations variables0)
                ++ parseLines
                ++ ["Solving the system symbolically using SymPy\x27s solve function"]
                ++ valLines).map JVal.str)
            else JVal.null)]

theorem parseSymEqs_ok (eqs : List String) :
    ∃ pr, parseSymEqs (fun s => Except.ok s) eqs = Except.ok pr := by
  induction eqs with
  | nil => exact ⟨([], []), rfl⟩
  | cons eq rest ih =>
    obtain ⟨⟨eqs1, lines1⟩, hpr⟩ := ih
    cases hb : breakAtChar '=' eq.toList with
    | some lr =>
      obtain ⟨l, r⟩ := lr
      refine ⟨((preprocess_equation (String.mk (trimL l)),
        preprocess_equation (String.mk (trimL r))) :: eqs1,
        parsedEqMsg (preprocess_equation (String.mk (trimL l)))
          (preprocess_equation (String.mk (trimL r))) :: lines1), ?_⟩
      unfold parseSymEqs
      simp only [hb, hpr]
    | none =>
      refine ⟨((preprocess_equation (String.mk (trimL eq.toList)), "0") :: eqs1,
        parsedEqMsg (preprocess_equation (String.mk (trimL eq.toList))) "0" :: lines1), ?_⟩
      unfold parseSymEqs
      simp only [hb, hpr]

theorem buildSysResult_ok (d : List (String × SymNum)) (vars : List String)
    (hd : ∀ v ∈ vars, (d.lookup v).isSome = true) :
    ∃ pairs vlines, buildSysResult d vars = Except.ok (pairs, vlines) ∧
      pairs.map Prod.fst = vars := by
  induction vars with
  | nil => exact ⟨[], [], rfl, rfl⟩
  | cons v vs ih =>
    have hv := hd v (List.mem_cons_self _ _)
    obtain ⟨pairs, vlines, hb, hk⟩ := ih (fun w hw => hd w (List.mem_cons_of_mem _ hw))
    cases hlv : d.lookup v with
    | none => rw [hlv] at hv; simp at hv
    | some value =>
      cases value with
      | rat q =>
        refine ⟨(v, JVal.num q) :: pairs, solvedNumMsg v q :: vlines, ?_, ?_⟩
        · unfold buildSysResult
          simp only [hlv, hb]
        · simp [hk]
      | sym sv =>
        refine ⟨(v, JVal.str sv) :: pairs, solvedSymMsg v sv :: vlines, ?_, ?_⟩
        · unfold buildSysResult
          simp only [hlv, hb]
        · simp [hk]

/-- Claim C10: the symbolic system solver uses only the first solution
set returned by SymPy `solve` (its result is unchanged when the remaining
sets are dropped), its "solution" object has one key per resolved
variable, and an empty solution list yields the dedicated error
object. -/
theorem C10_first_solution_only (equations variables0 : List String) (showSteps : Bool)
    (d : List (String × SymNum)) (rest : List (List (String × SymNum)))
    (hne : equations ≠ [])
    (hd : ∀ v ∈ resolvedVars equations variables0, (d.lookup v).isSome = true) :
    (solve_symbolic_system (fun s => Except.ok s) (fun _ => Except.ok (d :: rest))
        equations variables0 showSteps
      = solve_symbolic_system (fun s => Except.ok s) (fun _ => Except.ok [d])
        equations variables0 showSteps) ∧
    (solve_symbolic_system (fun s => Except.ok s) (fun _ => Except.ok [])
        equations variables0 showSteps
      = errObj "No solution found for the system") ∧
    (∃ pairs, jget (solve_symbolic_system (fun s => Except.ok s)
        (fun _ => Except.ok (d :: rest)) equations variables0 showSteps) "solution"
      = some (JVal.obj pairs) ∧
      pairs.map Prod.fst = resolvedVars equations variables0) := by
  cases equations with
  | nil => exact absurd rfl hne
  | cons e0 eqs0 =>
    obtain ⟨⟨symEqs, lines⟩, hpr⟩ := parseSymEqs_ok (e0 :: eqs0)
    obtain ⟨pairs, vlines, hbuild, hkeys⟩ := buildSysResult_ok d _ hd
    refine ⟨?_, ?_, ?_⟩
    · unfold solve_symbolic_system
      simp only [hpr, List.isEmpty_cons]
    · unfold solve_symbolic_system
      simp only [hpr, List.isEmpty_cons]
      rfl
    · refine ⟨pairs, ?_, hkeys⟩
      unfold solve_symbolic_system
      simp only [hpr, List.isEmpty_cons, hbuild, jget]
      simp

/-- The concrete first solution dict used by the C10 witness. -/
def sysSolXY : List (String × SymNum) := [("x", SymNum.rat 1), ("y", SymNum.rat 1)]

/-- Witness for the C10 theorem on the system `x + y = 2`, `x - y = 0`
with inferred variables. -/
theorem C10_first_solution_only_witness :
    (solve_symbolic_system (fun s => Except.ok s)
        (fun _ => Except.ok (sysSolXY :: [[("x", SymNum.rat 5)]]))
        ["x + y = 2", "x - y = 0"] [] true
      = solve_symbolic_system (fun s => Except.ok s) (fun _ => Except.ok [sysSolXY])
        ["x + y = 2", "x - y = 0"] [] true) ∧
    (solve_symbolic_system (fun s => Except.ok s) (fun _ => Except.ok [])
        ["x + y = 2", "x - y = 0"] [] true
      = errObj "No solution found for the system") ∧
    (∃ pairs, jget (solve_symbolic_system (fun s => Except.ok s)
        (fun _ => Except.ok (sysSolXY :: [[("x", SymNum.rat 5)]]))
        ["x + y = 2", "x - y = 0"] [] true) "solution"
      = some (JVal.obj pairs) ∧
      pairs.map Prod.fst = resolvedVars ["x + y = 2", "x - y = 0"] []) :=
  C10_first_solution_only ["x + y = 2", "x - y = 0"] [] true sysSolXY
    [[("x", SymNum.rat 5)]] (by decide) (by decide)

/-! ## Symbolic differentiation and integration

Embeddings of `perform_differentiation` (`sympy_solver.py` lines 302-366)
and `perform_integration` (lines 368-429).  Expressions are carried as
their rendered strings; `narrO` models the order-1 narration block
(lines 327-345: it only appends lines but can raise, e.g. from
`is_constant`), `diffO`/`integrateO` the `diff`/`integrate` calls, and
`intStepsO` the `integral_steps` call inside its local `try`. -/

/-- The `f"Simplifying: {simplified}"` step. -/
def simplifyMsg (simplified : String) : String := s!"Simplifying: {simplified}"

def perform_differentiation (sympifyO : String → Except String String)
    (narrO : String → Except String (List String))
    (diffO : String → ℕ → Except String String) (simplifyO : String → String)
    (expression varName : String) (order : ℕ) (showSteps : Bool) : JObj :=
  match sympifyO (preprocess_equation expression) with
  | Except.error e => errObj s!"Error in differentiation: {e}"
  | Except.ok expr =>
    match (if order = 1 then
        (narrO expr).map (fun ns =>
          [s!"Expression to differentiate: {expr}", s!"With respect to: {varName}",
           s!"Order of differentiation: {order}", "Using the basic differentiation rules:"] ++ ns)
      else Except.ok [s!"Expression to differentiate: {expr}", s!"With respect to: {varName}",
           s!"Order of differentiation: {order}"]) with
    | Except.error e => errObj s!"Error in differentiation: {e}"
    | Except.ok steps2 =>
      match diffO expr order with
      | Except.error e => errObj s!"Error in differentiation: {e}"
      | Except.ok result =>
        match (if simplifyO result ≠ result then
            (simplifyO result,
             steps2 ++ [s!"Result of differentiation: {result}", simplifyMsg (simplifyO result)])
          else (result, steps2 ++ [s!"Result of differentiation: {result}"])) with
        | (result2, steps3) =>
          [("original", JVal.str expr), ("derivative", JVal.str result2),
           ("variable", JVal.str varName), ("order", JVal.num order),
           ("steps", if showSteps then JVal.arr (steps3.map JVal.str) else JVal.null)]

/-- The step log of `perform_integration` before simplification
(lines 385-412). -/
def integrationSteps (intStepsO : String → Except String String)
    (expr varName : String) (limits : Option (ℚ × ℚ)) (result : String) : List String :=
  [s!"Expression to integrate: {expr}", s!"With respect to: {varName}"]
  ++ (match limits with
      | some lohi =>
        let lo := lohi.1
        let hi := lohi.2
        [s!"Definite integral with limits: [{lo}, {hi}]"]
      | none => ["Indefinite integral (antiderivative)"])
  ++ (match intStepsO expr with
      | Except.ok istr => ["Integration method:", istr]
      | Except.error e => [s!"Detailed integration steps unavailable: {e}",
          "Proceeding with direct integration..."])
  ++ (match limits with
      | some _ => [s!"Result of definite integration: {result}"]
      | none => [s!"Result of indefinite integration: {result} + C",
          "(where C is an arbitrary constant)"])

def perform_integration (sympifyO : String → Except String String)
    (intStepsO : String → Except String String)
    (integrateO : String → Option (ℚ × ℚ) → Except String String)
    (simplifyO : String → String)
    (expression varName : String) (limits : Option (ℚ × ℚ)) (showSteps : Bool) : JObj :=
  match sympifyO (preprocess_equation expression) with
  | Except.error e => errObj s!"Error in integration: {e}"
  | Except.ok expr =>
    match integrateO expr limits with
    | Except.error e => errObj s!"Error in integration: {e}"
    | Except.ok result =>
      match (if simplifyO result ≠ result then
          (simplifyO result, [simplifyMsg (simplifyO result)])
        else (result, [])) with
      | (result2, simpLines) =>
        [("original", JVal.str expr), ("integral", JVal.str result2),
         ("variable", JVal.str varName),
         ("limits", match limits with
           | some lohi => JVal.arr [JVal.num lohi.1, JVal.num lohi.2]
           | none => JVal.null),
         ("steps", if showSteps then
             JVal.arr ((integrationSteps intStepsO expr varName limits result
               ++ simpLines).map JVal.str)
           else JVal.null)]

/-! ## Plotter

Embedding of `plot_functions` (`plotter.py` lines 8-157).  The
matplotlib figure construction, `os.makedirs` and `savefig` side effects
are the oracle `renderO` (applied to the collected per-function analysis
text and the output path; an error is any exception raised after the
functions key was read).  `analyzeO` models the per-function plotting and
analysis loop body (lines 36-112), whose failures are swallowed
(`none` = the function was skipped). -/

def plot_functions (analyzeO : String → Option (List String))
    (renderO : List String → String → Except String Unit)
    (functions : Option (List String)) (xr0 xr1 : ℚ) (yRange : Option (ℚ × ℚ))
    (title outputPath : String) (width height : ℚ) : JObj :=
  match functions with
  | none => errObj "\x27functions\x27"
  | some fs =>
    match renderO ((fs.filterMap analyzeO).map (fun ls => String.intercalate "\n" ls))
        outputPath with
    | Except.error e => errObj e
    | Except.ok _ => [("imagePath", JVal.str outputPath)]

/-! ## Numeric linear-system solver

Embedding of `solve_linear_system_numeric` (`numpy_solver.py` lines
111-216).  The two regular expressions are translated as committed
scanners; for the coefficient pattern
`([-+]?\s*\d*\.?\d*)\s*\*?\s*{var}\b` maximal munch agrees with the
regex engine because every component's character class is disjoint from
the variable's leading letter, and for the constant pattern
`([-+]?\s*\d+\.?\d*)\s*(?![a-zA-Z])` the engine's backtracking reduces to:
take the longest numeric token whose following character is not a letter,
dropping at most one trailing character (any shorter split ends before a
digit or dot, which already satisfies the lookahead). -/

/-- Value of a digit string. -/
def digitsVal (l : List Char) : ℕ :=
  l.foldl (fun acc c => acc * 10 + (c.toNat - 48)) 0

/-- Model of Python `float(s)` on the sign/digits/dot strings produced by
the two regexes: leading and trailing whitespace is accepted, interior
whitespace raises. -/
def parsePyFloat (l0 : List Char) : Option ℚ :=
  let l := trimL l0
  let sgn : Option (Bool × List Char) :=
    match l with
    | '+' :: t => some (false, t)
    | '-' :: t => some (true, t)
    | _ => some (false, l)
  match sgn with
  | none => none
  | some (neg, l1) =>
    let d1 := l1.takeWhile Char.isDigit
    let l2 := l1.dropWhile Char.isDigit
    let dotted : Bool × List Char :=
      match l2 with
      | '.' :: t => (true, t)
      | _ => (false, l2)
    let d2 := dotted.2.takeWhile Char.isDigit
    let l4 := dotted.2.dropWhile Char.isDigit
    if l4.isEmpty ∧ (dotted.1 ∨ ¬ d1.isEmpty) ∧ ¬(d1.isEmpty ∧ d2.isEmpty) then
      some ((if neg then -1 else 1) *
        ((digitsVal d1 : ℚ) + (digitsVal d2 : ℚ) / 10 ^ d2.length))
    else none

def floatErrMsg (s : String) : String :=
  s!"could not convert string to float: \x27{s}\x27"

/-- Attempt of the coefficient pattern at the head of `l`; returns the
captured group and the remainder after the match. -/
def matchCoeffAt (var : List Char) (l : List Char) : Option (List Char × List Char) :=
  let sp : List Char × List Char :=
    match l with
    | '+' :: t => (['+'], t)
    | '-' :: t => (['-'], t)
    | _ => ([], l)
  let ws1 := sp.2.takeWhile Char.isWhitespace
  let l2 := sp.2.dropWhile Char.isWhitespace
  let d1 := l2.takeWhile Char.isDigit
  let l3 := l2.dropWhile Char.isDigit
  let dt : List Char × List Char :=
    match l3 with
    | '.' :: t => (['.'], t)
    | _ => ([], l3)
  let d2 := dt.2.takeWhile Char.isDigit
  let l5 := dt.2.dropWhile Char.isDigit
  let l6 := l5.dropWhile Char.isWhitespace
  let l7 := match l6 with
    | '*' :: t => t
    | _ => l6
  let l8 := l7.dropWhile Char.isWhitespace
  if isPrefixL var l8 then
    let rest := l8.drop var.length
    let boundaryOk :=
      match rest with
      | [] => true
      | c :: _ => ¬(c.isAlphanum ∨ c = '_')
    if boundaryOk then some (sp.1 ++ ws1 ++ d1 ++ dt.1 ++ d2, rest) else none
  else none

/-- The `re.findall` scan of the coefficient pattern: try each position left
to right, continuing after a match (fuelled by the string length; every
step consumes at least one character for the nonempty variable names this
code produces). -/
def coeffMatchesAux (var : List Char) : ℕ → List Char → List (List Char)
  | 0, _ => []
  | _, [] => []
  | fuel + 1, c :: t =>
    match matchCoeffAt var (c :: t) with
    | some (g, rest) => g :: coeffMatchesAux var fuel rest
    | none => coeffMatchesAux var fuel t

def coeffMatches (var l : List Char) : List (List Char) :=
  coeffMatchesAux var l.length l

/-- The per-match conversion (lines 162-165): strip, map a bare sign or
empty match to `±1`, convert with `float`. -/
def coeffValue (g : List Char) : Except String ℚ :=
  let t := trimL g
  let t2 := if t = [] ∨ t = ['+'] ∨ t = ['-'] then t ++ ['1'] else t
  match parsePyFloat t2 with
  | some v => Except.ok v
  | none => Except.error (floatErrMsg (String.mk t2))

def sumCoeffList : List (List Char) → Except String ℚ
  | [] => Except.ok 0
  | g :: gs =>
    match coeffValue g with
    | Except.error e => Except.error e
    | Except.ok v =>
      match sumCoeffList gs with
      | Except.error e => Except.error e
      | Except.ok rest => Except.ok (v + rest)

/-- Net coefficient of one variable: left-side sum minus right-side sum
(lines 157-173). -/
def varCoeff (left right : List Char) (var : String) : Except String ℚ :=
  match sumCoeffList (coeffMatches var.toList left) with
  | Except.error e => Except.error e
  | Except.ok a =>
    match sumCoeffList (coeffMatches var.toList right) with
    | Except.error e => Except.error e
    | Except.ok b => Except.ok (a - b)

def computeCoeffs (left right : List Char) : List String → Except String (List ℚ)
  | [] => Except.ok []
  | v :: vs =>
    match varCoeff left right v with
    | Except.error e => Except.error e
    | Except.ok c =>
      match computeCoeffs left right vs with
      | Except.error e => Except.error e
      | Except.ok cs => Except.ok (c :: cs)

/-- The `re.search` attempt of the constant pattern at one position (see the section
comment for the backtracking analysis). -/
def constSearchAt (l : List Char) : Option (List Char) :=
  let sp : List Char × List Char :=
    match l with
    | '+' :: t => (['+'], t)
    | '-' :: t => (['-'], t)
    | _ => ([], l)
  let ws := sp.2.takeWhile Char.isWhitespace
  let l2 := sp.2.dropWhile Char.isWhitespace
  let d1 := l2.takeWhile Char.isDigit
  let l3 := l2.dropWhile Char.isDigit
  if d1.isEmpty then none
  else
    let dt : List Char × List Char :=
      match l3 with
      | '.' :: t => (['.'], t)
      | _ => ([], l3)
    let d2 := dt.2.takeWhile Char.isDigit
    let l5 := dt.2.dropWhile Char.isDigit
    let nextIsAlpha :=
      match l5 with
      | c :: _ => c.isAlpha
      | [] => false
    if nextIsAlpha then
      if ¬ d2.isEmpty then some (sp.1 ++ ws ++ d1 ++ dt.1 ++ d2.dropLast)
      else if ¬ dt.1.isEmpty then some (sp.1 ++ ws ++ d1)
      else if 2 ≤ d1.length then some (sp.1 ++ ws ++ d1.dropLast)
      else none
    else some (sp.1 ++ ws ++ d1 ++ dt.1 ++ d2)

/-- The `re.search` scan: first position where the constant pattern
matches. -/
def constSearch : List Char → Option (List Char)
  | [] => none
  | c :: t =>
    match constSearchAt (c :: t) with
    | some g => some g
    | none => constSearch t

/-- Constant of one side (lines 177-182): `0` when the pattern does not
match, otherwise `float(group)` (which raises on an interior space). -/
def sideConst (side : List Char) : Except String ℚ :=
  match constSearch side with
  | none => Except.ok 0
  | some g =>
    match parsePyFloat g with
    | some v => Except.ok v
    | none => Except.error (floatErrMsg (String.mk g))

def processedEqMsg (l r : String) : String := s!"Processed equation: {l} = {r}"

def rowMsg (coeffs : List ℚ) (const : ℚ) : String :=
  let cs := String.intercalate ", " (coeffs.map toString)
  s!"Coefficients: [{cs}], Constant: {const}"

/-- One row of the coefficient extraction (lines 140-189). -/
def parseRow (varsList : List String) (eq : String) :
    Except String (List ℚ × ℚ × List String) :=
  let lr : List Char × List Char :=
    match breakAtChar '=' eq.toList with
    | some (l, r) => (preprocessL (trimL l), preprocessL (trimL r))
    | none => (preprocessL eq.toList, ['0'])
  match computeCoeffs lr.1 lr.2 varsList with
  | Except.error e => Except.error e
  | Except.ok coeffs =>
    match sideConst lr.1 with
    | Except.error e => Except.error e
    | Except.ok lconst =>
      match sideConst lr.2 with
      | Except.error e => Except.error e
      | Except.ok rconst =>
        Except.ok (coeffs, rconst - lconst,
          [processedEqMsg (String.mk lr.1) (String.mk lr.2),
           rowMsg coeffs (rconst - lconst)])

def parseRows (varsList : List String) :
    List String → Except String (List (List ℚ) × List ℚ × List String)
  | [] => Except.ok ([], [], [])
  | eq :: rest =>
    match parseRow varsList eq with
    | Except.error e => Except.error e
    | Except.ok (coeffs, const, lines1) =>
      match parseRows varsList rest with
      | Except.error e => Except.error e
      | Except.ok (A, b, lines2) => Except.ok (coeffs :: A, const :: b, lines1 ++ lines2)

/-- Determinant by first-row Laplace expansion (fuelled by the row
count). -/
def detQfuel : ℕ → List (List ℚ) → ℚ
  | 0, _ => 1
  | fuel + 1, m =>
    match m with
    | [] => 1
    | r :: rs =>
      ((List.range r.length).map (fun j =>
        (-1 : ℚ) ^ j * r.getD j 0 *
          detQfuel fuel (rs.map (fun row => row.eraseIdx j)))).sum

def detQ (m : List (List ℚ)) : ℚ := detQfuel m.length m

def replaceCol (j : ℕ) (b : List ℚ) (m : List (List ℚ)) : List (List ℚ) :=
  (m.zip b).map (fun rb => rb.1.set j rb.2)

/-- Model of `numpy.linalg.solve`: exact Cramer solution; `none` models
the `LinAlgError` raised for a non-square or singular system. -/
def npLinalgSolve (A : List (List ℚ)) (b : List ℚ) : Option (List ℚ) :=
  let n := A.length
  if (A.all (fun r => r.length = n) ∧ b.length = n ∧ 0 < n) then
    if detQ A = 0 then none
    else some ((List.range n).map (fun j => detQ (replaceCol j b A) / detQ A))
  else none

def variablesMsg (vs : List String) : String :=
  let s := String.intercalate ", " vs
  s!"Variables: [{s}]"

def matrixMsg (A : List (List ℚ)) : String :=
  let rows := String.intercalate "\n" (A.map (fun r =>
    String.intercalate ", " (r.map toString)))
  s!"Coefficient matrix A:\n{rows}"

def constantsMsg (b : List ℚ) : String :=
  let s := String.intercalate ", " (b.map toString)
  s!"Constant vector b:\n{s}"

/-- Embedding of `solve_linear_system_numeric` (lines 111-216). -/
def solve_linear_system_numeric (equations variables0 : List String) : JObj :=
  if equations.isEmpty then errObj "No equations provided"
  else
    match parseRows (resolvedVars equations variables0) equations with
    | Except.error e => errObj s!"Error solving system: {e}"
    | Except.ok (A, b, rowLines) =>
      match npLinalgSolve A b with
      | none => errObj "The system is singular or not uniquely solvable"
      | some solution =>
        [("solution", JVal.obj (((resolvedVars equations variables0).zip solution).map
            (fun p => (p.1, JVal.num (pyRound p.2 6))))),
         ("variables", JVal.arr ((resolvedVars equations variables0).map JVal.str)),
         ("matrix", JVal.arr (A.map (fun row => JVal.arr (row.map JVal.num)))),
         ("constants", JVal.arr (b.map JVal.num)),
         ("steps", JVal.arr (([variablesMsg (resolvedVars equations variables0)]
            ++ rowLines ++ [matrixMsg A, constantsMsg b]).map JVal.str))]

/-- Extracts an object of numeric fields. -/
def getObjNums (v : Option JVal) : Option (List (String × ℚ)) :=
  match v with
  | some (JVal.obj l) =>
    l.mapM (fun p => match p.2 with | JVal.num q => some (p.1, q) | _ => none)
  | _ => none

/-- Claim C1: evaluation of `solve_linear_system_numeric` at the claim's
input `["2x + y = 5", "x - y = 1"]` with inferred variables.  The
inferred variables are `[x, y]` and the coefficient matrix is
`[[2, 1], [1, -1]]` as the claim intends, but the constant-extraction
regex matches the coefficient `2` of `2*x` on the left of the first
equation (its next character `*` is not a letter), giving constants
`[5 - 2, 1 - 0] = [3, 1]` instead of `[5, 1]`; the solver therefore
returns `{x: 1.333333, y: 0.333333}`, not the claimed
`{x: 2.0, y: 1.0}`. -/
theorem C1_linear_system_eval :
    getObjNums (jget (solve_linear_system_numeric ["2x + y = 5", "x - y = 1"] []) "solution")
      = some [("x", 1333333/1000000), ("y", 333333/1000000)] ∧
    (jget (solve_linear_system_numeric ["2x + y = 5", "x - y = 1"] []) "constants").bind getNums
      = some [3, 1] ∧
    (jget (solve_linear_system_numeric ["2x + y = 5", "x - y = 1"] []) "variables")
      = some (JVal.arr [JVal.str "x", JVal.str "y"]) ∧
    ¬((1333333/1000000 : ℚ) = 2 ∧ (333333/1000000 : ℚ) = 1) := by
  refine ⟨?_, ?_, ?_, ?_⟩
  · with_unfolding_all rfl
  · with_unfolding_all rfl
  · with_unfolding_all rfl
  · intro h
    exact absurd h.1 (by norm_num)

/-! ## Response-shape properties -/

/-- A result object is either an error object whose only key is "error",
or a success object without an "error" key. -/
def errorExclusive (r : JObj) : Prop :=
  jkeys r = ["error"] ∨ "error" ∉ jkeys r

/-- Claim C3: every object returned by the eight top-level operations is
either a success object with no "error" key or an object whose only key
is "error"; no branch mixes the two. -/
theorem C3_error_exclusive :
    (∀ f newtonO brentqO equation varName d0 d1 prec,
      errorExclusive (solve_equation_numeric f newtonO brentqO equation varName d0 d1 prec)) ∧
    (∀ equations variables0,
      errorExclusive (solve_linear_system_numeric equations variables0)) ∧
    (∀ f rkO equation y0 x0 xEnd numPoints method maxStep tolerance,
      errorExclusive (solve_ode f rkO equation y0 x0 xEnd numPoints method maxStep tolerance)) ∧
    (∀ sympifyO solveO simplifyO collectO factorO invertO equation varName d0 d1 prec showSteps,
      errorExclusive (solve_symbolic_equation sympifyO solveO simplifyO collectO factorO
        invertO equation varName d0 d1 prec showSteps)) ∧
    (∀ sympifyO solveSysO equations variables0 showSteps,
      errorExclusive (solve_symbolic_system sympifyO solveSysO equations variables0 showSteps)) ∧
    (∀ sympifyO narrO diffO simplifyO expression varName order showSteps,
      errorExclusive (perform_differentiation sympifyO narrO diffO simplifyO expression
        varName order showSteps)) ∧
    (∀ sympifyO intStepsO integrateO simplifyO expression varName limits showSteps,
      errorExclusive (perform_integration sympifyO intStepsO integrateO simplifyO expression
        varName limits showSteps)) ∧
    (∀ analyzeO renderO functions xr0 xr1 yRange title outputPath width height,
      errorExclusive (plot_functions analyzeO renderO functions xr0 xr1 yRange title
        outputPath width height)) := by
  refine ⟨?_, ?_, ?_, ?_, ?_, ?_, ?_, ?_⟩
  · intro f newtonO brentqO equation varName d0 d1 prec
    right
    unfold solve_equation_numeric
    simp [jkeys]
  · intro equations variables0
    unfold solve_linear_system_numeric errorExclusive
    repeat' split
    all_goals first | exact Or.inl rfl | (right; simp [jkeys])
  · intro f rkO equation y0 x0 xEnd numPoints method maxStep tolerance
    unfold solve_ode errorExclusive
    repeat' split
    all_goals first | exact Or.inl rfl | (right; simp [jkeys])
  · intro sympifyO solveO simplifyO collectO factorO invertO equation varName d0 d1 prec showSteps
    unfold solve_symbolic_equation solveSymbolicSuccess errorExclusive
    repeat' split
    all_goals first | exact Or.inl rfl | (right; simp [jkeys])
  · intro sympifyO solveSysO equations variables0 showSteps
    unfold solve_symbolic_system errorExclusive
    repeat' split
    all_goals first | exact Or.inl rfl | (right; simp [jkeys])
  · intro sympifyO narrO diffO simplifyO expression varName order showSteps
    unfold perform_differentiation errorExclusive
    repeat' split
    all_goals first | exact Or.inl rfl | (right; simp [jkeys])
  · intro sympifyO intStepsO integrateO simplifyO expression varName limits showSteps
    unfold perform_integration errorExclusive
    repeat' split
    all_goals first | exact Or.inl rfl | (right; simp [jkeys])
  · intro analyzeO renderO functions xr0 xr1 yRange title outputPath width height
    unfold plot_functions errorExclusive
    repeat' split
    all_goals first | exact Or.inl rfl | (right; simp [jkeys])

/-- Claim C8, counterexample: a successful plot response contains only
the "imagePath" key — it has no "steps" field and no "error" key, so the
claim that every success object includes "steps" fails for the plot
tool. -/
theorem C8_counterexample :
    jkeys (plot_functions (fun _ => some []) (fun _ _ => Except.ok ()) (some ["x"])
      (-10) 10 none "Function Plot" "plot.png" 8 6) = ["imagePath"] ∧
    "steps" ∉ jkeys (plot_functions (fun _ => some []) (fun _ _ => Except.ok ()) (some ["x"])
      (-10) 10 none "Function Plot" "plot.png" 8 6) ∧
    getErr (plot_functions (fun _ => some []) (fun _ _ => Except.ok ()) (some ["x"])
      (-10) 10 none "Function Plot" "plot.png" 8 6) = none := by
  refine ⟨rfl, by decide, rfl⟩

/-- Claim C8 (amended): every success object of the seven solver
operations includes a "steps" field (an array, or null when the request
suppressed narration), but the plot tool's success object consists of
"imagePath" alone, with no "steps" field. -/
theorem C8_steps_field :
    (∀ f newtonO brentqO equation varName d0 d1 prec,
      "steps" ∈ jkeys (solve_equation_numeric f newtonO brentqO equation varName d0 d1 prec) ∨
      jkeys (solve_equation_numeric f newtonO brentqO equation varName d0 d1 prec) = ["error"]) ∧
    (∀ equations variables0,
      "steps" ∈ jkeys (solve_linear_system_numeric equations variables0) ∨
      jkeys (solve_linear_system_numeric equations variables0) = ["error"]) ∧
    (∀ f rkO equation y0 x0 xEnd numPoints method maxStep tolerance,
      "steps" ∈ jkeys (solve_ode f rkO equation y0 x0 xEnd numPoints method maxStep tolerance) ∨
      jkeys (solve_ode f rkO equation y0 x0 xEnd numPoints method maxStep tolerance) = ["error"]) ∧
    (∀ sympifyO solveO simplifyO collectO factorO invertO equation varName d0 d1 prec showSteps,
      "steps" ∈ jkeys (solve_symbolic_equation sympifyO solveO simplifyO collectO factorO
        invertO equation varName d0 d1 prec showSteps) ∨
      jkeys (solve_symbolic_equation sympifyO solveO simplifyO collectO factorO
        invertO equation varName d0 d1 prec showSteps) = ["error"]) ∧
    (∀ sympifyO solveSysO equations variables0 showSteps,
      "steps" ∈ jkeys (solve_symbolic_system sympifyO solveSysO equations variables0 showSteps) ∨
      jkeys (solve_symbolic_system sympifyO solveSysO equations variables0 showSteps)
        = ["error"]) ∧
    (∀ sympifyO narrO diffO simplifyO expression varName order showSteps,
      "steps" ∈ jkeys (perform_differentiation sympifyO narrO diffO simplifyO expression
        varName order showSteps) ∨
      jkeys (perform_differentiation sympifyO narrO diffO simplifyO expression
        varName order showSteps) = ["error"]) ∧
    (∀ sympifyO intStepsO integrateO simplifyO expression varName limits showSteps,
      "steps" ∈ jkeys (perform_integration sympifyO intStepsO integrateO simplifyO expression
        varName limits showSteps) ∨
      jkeys (perform_integration sympifyO intStepsO integrateO simplifyO expression
        varName limits showSteps) = ["error"]) ∧
    (∀ analyzeO renderO functions xr0 xr1 yRange title outputPath width height,
      jkeys (plot_functions analyzeO renderO functions xr0 xr1 yRange title
        outputPath width height) = ["imagePath"] ∨
      jkeys (plot_functions analyzeO renderO functions xr0 xr1 yRange title
        outputPath width height) = ["error"]) := by
  refine ⟨?_, ?_, ?_, ?_, ?_, ?_, ?_, ?_⟩
  · intro f newtonO brentqO equation varName d0 d1 prec
    left
    unfold solve_equation_numeric
    simp [jkeys]
  · intro equations variables0
    unfold solve_linear_system_numeric
    repeat' split
    all_goals first | exact Or.inr rfl | (left; simp [jkeys])
  · intro f rkO equation y0 x0 xEnd numPoints method maxStep tolerance
    unfold solve_ode
    repeat' split
    all_goals first | exact Or.inr rfl | (left; simp [jkeys])
  · intro sympifyO solveO simplifyO collectO factorO invertO equation varName d0 d1 prec showSteps
    unfold solve_symbolic_equation solveSymbolicSuccess
    repeat' split
    all_goals first | exact Or.inr rfl | (left; simp [jkeys])
  · intro sympifyO solveSysO equations variables0 showSteps
    unfold solve_symbolic_system
    repeat' split
    all_goals first | exact Or.inr rfl | (left; simp [jkeys])
  · intro sympifyO narrO diffO simplifyO expression varName order showSteps
    unfold perform_differentiation
    repeat' split
    all_goals first | exact Or.inr rfl | (left; simp [jkeys])
  · intro sympifyO intStepsO integrateO simplifyO expression varName limits showSteps
    unfold perform_integration
    repeat' split
    all_goals first | exact Or.inr rfl | (left; simp [jkeys])
  · intro analyzeO renderO functions xr0 xr1 yRange title outputPath width height
    unfold plot_functions
    repeat' split
    all_goals first | exact Or.inr rfl | exact Or.inl rfl
